import Mathlib

/-!
# Verification of the pmdaemon supervision engine against its specification

This file gives a shallow embedding, in Lean 4, of the parts of the
`pmdaemon` process supervisor (a Rust program) that its natural-language
specification talks about, and proves or refutes the specified properties.

Conventions of the embedding:
* Rust `u16`/`u32`/`u64` values are modelled as `ℕ`; the operations the
  claims exercise never overflow on the inputs considered (where a bound
  matters, e.g. `u16` ports, it appears as an explicit hypothesis).
* Rust `HashSet<u16>` (the allocated-port table) is modelled as `Finset ℕ`.
* Rust `HashMap` collections keyed by fresh UUIDs are modelled as
  association lists (`List (ℕ × _)`) whose keys are drawn from a fresh-id
  counter; `HashMap::insert` with a fresh key becomes list cons.
* Methods taking `&mut self` and returning `Result<T>` become functions
  returning `Except Err T × State` so that mutations made before an early
  `return Err` are visible, exactly as in the source.
* OS effects (spawning, signals, child wait) are modelled by explicit
  outcome parameters; the functions record which signals they would send.
-/

namespace PMDaemon

/-- Error kinds of `pmdaemon::error::Error`, restricted to the variants the
embedded operations can produce (src/src/error.rs; `Error::config` wraps a
message, the others are struct variants). -/
inductive Err where
  | alreadyExists (name : String)
  | alreadyRunning (name : String)
  | notFound (identifier : String)
  | startFailed (name : String)
  | stopFailed (name : String)
  | portInUse (port : ℕ)
  | noFreePort (lo hi : ℕ)
  | notEnoughPorts (lo hi instances : ℕ)
  | invalidConfig (msg : String)
  deriving DecidableEq, Repr

/-- `PortConfig` from src/src/config.rs lines 356-377: `Single(u16)`,
`Range(start, end)` (inclusive) and `Auto(start, end)` (inclusive). -/
inductive PortConfig where
  | single (port : ℕ)
  | range (lo hi : ℕ)
  | auto (lo hi : ℕ)
  deriving DecidableEq, Repr

/-- The ascending scan of `PortConfig::Auto` in
`ProcessManager::allocate_port` (manager.rs lines 1967-1975): walk the
candidate ports in order, reserve and return the first one not allocated. -/
def autoScan (allocated : Finset ℕ) : List ℕ → Option (ℕ × Finset ℕ)
  | [] => none
  | p :: rest =>
    if p ∈ allocated then autoScan allocated rest
    else some (p, insert p allocated)

/-- Embeds `ProcessManager::allocate_port` (manager.rs lines 1934-1982).
The first component is the returned `Result<u16>`, the second the state of
`self.allocated_ports` after the call.  For `Range`, the source first
checks every port of the range and only then inserts them, so a failed
range allocation leaves the set untouched. -/
def allocatePort (portConfig : PortConfig) (allocated : Finset ℕ) :
    Except Err ℕ × Finset ℕ :=
  match portConfig with
  | .single port =>
    if port ∈ allocated then (.error (.portInUse port), allocated)
    else (.ok port, insert port allocated)
  | .range lo hi =>
    let ports : List ℕ := List.range' lo (hi + 1 - lo)
    match ports.find? (fun p => decide (p ∈ allocated)) with
    | some p => (.error (.portInUse p), allocated)
    | none => (.ok lo, ports.foldl (fun s p => insert p s) allocated)
  | .auto lo hi =>
    match autoScan allocated (List.range' lo (hi + 1 - lo)) with
    | some (p, alloc') => (.ok p, alloc')
    | none => (.error (.noFreePort lo hi), allocated)

/-- Embeds `ProcessManager::deallocate_ports` (manager.rs lines 1985-2006). -/
def deallocatePorts (portConfig : PortConfig) (assignedPort : Option ℕ)
    (allocated : Finset ℕ) : Finset ℕ :=
  match portConfig with
  | .single port => allocated.erase port
  | .range lo hi => (List.range' lo (hi + 1 - lo)).foldl (fun s p => s.erase p) allocated
  | .auto _ _ =>
    match assignedPort with
    | some port => allocated.erase port
    | none => allocated

lemma mem_range'_iff (lo hi p : ℕ) : p ∈ List.range' lo (hi + 1 - lo) ↔ lo ≤ p ∧ p ≤ hi := by
  rw [List.mem_range'_1]
  omega

lemma foldl_insert_mem (l : List ℕ) (A : Finset ℕ) (q : ℕ) :
    q ∈ l.foldl (fun s p => insert p s) A ↔ q ∈ l ∨ q ∈ A := by
  induction l generalizing A with
  | nil => simp
  | cons x xs ih => simp [ih, Finset.mem_insert]; tauto

lemma autoScan_none (l : List ℕ) (A : Finset ℕ) (h : ∀ p ∈ l, p ∈ A) :
    autoScan A l = none := by
  induction l with
  | nil => rfl
  | cons x xs ih =>
    have hx : x ∈ A := h x (by simp)
    simp only [autoScan, if_pos hx]
    exact ih (fun p hp => h p (List.mem_cons_of_mem _ hp))

lemma autoScan_range' (n : ℕ) : ∀ (lo : ℕ) (A : Finset ℕ) (m : ℕ),
    lo ≤ m → m < lo + n → m ∉ A → (∀ q, lo ≤ q → q < m → q ∈ A) →
    autoScan A (List.range' lo n) = some (m, insert m A) := by
  induction n with
  | zero => intro lo A m h1 h2; omega
  | succ n ih =>
    intro lo A m h1 h2 h3 h4
    rw [List.range'_succ]
    by_cases hlo : lo ∈ A
    · have hmlo : m ≠ lo := fun h => h3 (h ▸ hlo)
      simp only [autoScan, if_pos hlo]
      exact ih (lo + 1) A m (by omega) (by omega) h3 (fun q hq hq' => h4 q (by omega) hq')
    · have hmlo : m = lo := by
        by_contra hne
        exact hlo (h4 lo le_rfl (by omega))
      subst hmlo
      simp [autoScan, hlo]

/-- C5: `allocate_port` satisfies the reserve contract.  For `Single(p)` it
fails iff `p` is already reserved, otherwise reserves exactly `{p}` and
returns `p`; for `Range(a,b)` it fails iff any port in `[a,b]` is already
reserved, leaving the reserved set unchanged on failure, and otherwise
reserves all ports of `[a,b]` and returns `a`; for `Auto(a,b)` it reserves
and returns the smallest unreserved port in `[a,b]`, failing iff no port in
the range is free. -/
theorem C5_allocate_port_contract (p a b : ℕ) (A : Finset ℕ) :
    (p ∈ A → allocatePort (.single p) A = (.error (.portInUse p), A)) ∧
    (p ∉ A → allocatePort (.single p) A = (.ok p, insert p A)) ∧
    ((∃ q, a ≤ q ∧ q ≤ b ∧ q ∈ A) →
      ∃ q, a ≤ q ∧ q ≤ b ∧ q ∈ A ∧
        allocatePort (.range a b) A = (.error (.portInUse q), A)) ∧
    ((∀ q, a ≤ q → q ≤ b → q ∉ A) →
      allocatePort (.range a b) A = (.ok a, A ∪ Finset.Icc a b)) ∧
    (∀ m, a ≤ m → m ≤ b → m ∉ A → (∀ q, a ≤ q → q < m → q ∈ A) →
      allocatePort (.auto a b) A = (.ok m, insert m A)) ∧
    ((∀ q, a ≤ q → q ≤ b → q ∈ A) →
      allocatePort (.auto a b) A = (.error (.noFreePort a b), A)) := by
  refine ⟨?_, ?_, ?_, ?_, ?_, ?_⟩
  · intro h; simp [allocatePort, h]
  · intro h; simp [allocatePort, h]
  · intro h
    rcases hf : (List.range' a (b + 1 - a)).find? (fun q => decide (q ∈ A)) with _ | q
    · exfalso
      obtain ⟨q, h1, h2, h3⟩ := h
      have := List.find?_eq_none.mp hf q ((mem_range'_iff a b q).mpr ⟨h1, h2⟩)
      simp at this
      exact this h3
    · have hqmem := List.mem_of_find?_eq_some hf
      have hqA := List.find?_some hf
      simp at hqA
      rw [mem_range'_iff] at hqmem
      exact ⟨q, hqmem.1, hqmem.2, hqA, by simp [allocatePort, hf]⟩
  · intro h
    have hf : (List.range' a (b + 1 - a)).find? (fun q => decide (q ∈ A)) = none := by
      rw [List.find?_eq_none]
      intro q hq
      rw [mem_range'_iff] at hq
      simpa using h q hq.1 hq.2
    simp only [allocatePort, hf]
    congr 1
    apply Finset.ext
    intro q
    rw [foldl_insert_mem, mem_range'_iff, Finset.mem_union, Finset.mem_Icc]
    tauto
  · intro m h1 h2 h3 h4
    have := autoScan_range' (b + 1 - a) a A m h1 (by omega) h3 h4
    simp [allocatePort, this]
  · intro h
    have : autoScan A (List.range' a (b + 1 - a)) = none := by
      apply autoScan_none
      intro q hq
      rw [mem_range'_iff] at hq
      exact h q hq.1 hq.2
    simp [allocatePort, this]

/-- Witness for C5 at concrete inputs: every hypothesis of the contract is
discharged on small examples and the allocator is evaluated there. -/
theorem C5_allocate_port_contract_witness :
    allocatePort (.single 3000) ({3000} : Finset ℕ) = (.error (.portInUse 3000), {3000}) ∧
    allocatePort (.single 5000) ({3000} : Finset ℕ) = (.ok 5000, insert 5000 {3000}) ∧
    allocatePort (.range 1 3) ({5} : Finset ℕ) = (.ok 1, {5} ∪ Finset.Icc 1 3) ∧
    allocatePort (.auto 1 3) ({1} : Finset ℕ) = (.ok 2, insert 2 {1}) ∧
    allocatePort (.auto 1 2) ({1, 2} : Finset ℕ) = (.error (.noFreePort 1 2), {1, 2}) := by
  refine ⟨(C5_allocate_port_contract 3000 0 0 {3000}).1 (by decide),
    (C5_allocate_port_contract 5000 0 0 {3000}).2.1 (by decide),
    (C5_allocate_port_contract 0 1 3 {5}).2.2.2.1 ?_,
    (C5_allocate_port_contract 0 1 3 {1}).2.2.2.2.1 2 (by decide) (by decide) (by decide) ?_,
    (C5_allocate_port_contract 0 1 2 {1, 2}).2.2.2.2.2 ?_⟩
  · intro q h1 h2
    simp only [Finset.mem_singleton]
    omega
  · intro q h1 h2
    simp only [Finset.mem_singleton]
    omega
  · intro q h1 h2
    simp only [Finset.mem_insert, Finset.mem_singleton]
    omega

/-- Health state of `pmdaemon::health::HealthState` (health.rs lines 213-224). -/
inductive HealthState where
  | healthy
  | unhealthy
  | unknown
  deriving DecidableEq, Repr

/-- `HealthCheckType` (health.rs lines 133-153): HTTP GET or script execution. -/
inductive HealthCheckType where
  | http (url : String)
  | script (path : String)
  deriving DecidableEq, Repr

/-- `HealthCheckConfig` (health.rs lines 95-111); `timeout` and `interval`
are durations in milliseconds. -/
structure HealthCheckConfig where
  checkType : HealthCheckType
  timeout : ℕ
  interval : ℕ
  retries : ℕ
  enabled : Bool
  deriving DecidableEq, Repr

/-- `HealthStatus` (health.rs lines 177-196); timestamps are abstract ticks. -/
structure HealthStatus where
  state : HealthState
  lastCheck : Option ℕ
  lastSuccess : Option ℕ
  consecutiveFailures : ℕ
  totalChecks : ℕ
  errorMessage : Option String
  deriving DecidableEq, Repr

/-- `HealthStatus::default` (health.rs lines 286-297). -/
def HealthStatus.initial : HealthStatus :=
  { state := .unknown, lastCheck := none, lastSuccess := none,
    consecutiveFailures := 0, totalChecks := 0, errorMessage := none }

/-- Embeds `HealthCheck::check` (health.rs lines 626-669).  The probe
itself (`check_http`/`check_script`) performs I/O, so its result is the
parameter `result`; `now` is the sampled clock.  When checks are disabled
the status is returned unchanged (lines 627-630). -/
def healthCheckStep (cfg : HealthCheckConfig) (st : HealthStatus)
    (result : Except String Unit) (now : ℕ) : HealthStatus :=
  if !cfg.enabled then st
  else
    let st := { st with lastCheck := some now, totalChecks := st.totalChecks + 1 }
    match result with
    | .ok () =>
      { st with state := .healthy, lastSuccess := some now,
                consecutiveFailures := 0, errorMessage := none }
    | .error e =>
      let st := { st with consecutiveFailures := st.consecutiveFailures + 1,
                          errorMessage := some e }
      if st.consecutiveFailures ≥ cfg.retries then { st with state := .unhealthy }
      else if st.state = .unknown then { st with state := .unhealthy }
      else st

/-- A concrete enabled configuration with `retries = 0`, used to refute the
unconditional health-state law of C7. -/
def retriesZeroCfg : HealthCheckConfig :=
  { checkType := .http "http://localhost:9615/health", timeout := 30000,
    interval := 30000, retries := 0, enabled := true }

/-- C7 counterexample: with `retries = 0`, after a successful executed
check the status has `consecutive_failures = 0 ≥ retries` yet its state is
`Healthy`, not `Unhealthy` — so the claimed law
`consecutive_failures ≥ retries ⇒ state = Unhealthy` fails as stated. -/
theorem C7_health_law_fails_at_zero_retries :
    (healthCheckStep retriesZeroCfg HealthStatus.initial (.ok ()) 5).consecutiveFailures
        ≥ retriesZeroCfg.retries
      ∧ (healthCheckStep retriesZeroCfg HealthStatus.initial (.ok ()) 5).state
        = HealthState.healthy
      ∧ HealthState.healthy ≠ HealthState.unhealthy := by
  refine ⟨?_, rfl, by decide⟩
  decide

/-- C7 (amended): after each executed (enabled) health check,
`total_checks` increments and `last_check` is set to now; on success the
state becomes Healthy, `last_success` is set, `consecutive_failures` resets
to 0 and the error message is cleared; on failure `consecutive_failures`
increments, the error is recorded, the state becomes Unhealthy when
`consecutive_failures ≥ retries`, and below the threshold it changes to
Unhealthy only if it was previously Unknown.  Consequently, **when
`retries ≥ 1`**, `consecutive_failures ≥ retries` implies the state is
Unhealthy after the check. -/
theorem C7_health_check_update (cfg : HealthCheckConfig) (st : HealthStatus)
    (res : Except String Unit) (now : ℕ) (hen : cfg.enabled = true) :
    (healthCheckStep cfg st res now).totalChecks = st.totalChecks + 1 ∧
    (healthCheckStep cfg st res now).lastCheck = some now ∧
    (res = .ok () →
      (healthCheckStep cfg st res now).state = .healthy ∧
      (healthCheckStep cfg st res now).lastSuccess = some now ∧
      (healthCheckStep cfg st res now).consecutiveFailures = 0 ∧
      (healthCheckStep cfg st res now).errorMessage = none) ∧
    (∀ msg, res = .error msg →
      (healthCheckStep cfg st res now).consecutiveFailures = st.consecutiveFailures + 1 ∧
      (healthCheckStep cfg st res now).errorMessage = some msg ∧
      (st.consecutiveFailures + 1 ≥ cfg.retries →
        (healthCheckStep cfg st res now).state = .unhealthy) ∧
      (st.consecutiveFailures + 1 < cfg.retries →
        (healthCheckStep cfg st res now).state
          = (if st.state = .unknown then .unhealthy else st.state))) ∧
    (1 ≤ cfg.retries →
      (healthCheckStep cfg st res now).consecutiveFailures ≥ cfg.retries →
      (healthCheckStep cfg st res now).state = .unhealthy) := by
  cases res with
  | ok u =>
    cases u
    refine ⟨by simp [healthCheckStep, hen], by simp [healthCheckStep, hen],
      fun _ => by simp [healthCheckStep, hen], fun msg h => by simp at h, ?_⟩
    intro h1 h2
    exfalso
    simp [healthCheckStep, hen] at h2
    omega
  | error e =>
    simp only [healthCheckStep, hen, Bool.not_true, Bool.false_eq_true, if_false]
    refine ⟨?_, ?_, ?_, ?_, ?_⟩
    · split_ifs <;> rfl
    · split_ifs <;> rfl
    · intro h; cases h
    · intro msg h
      injection h with h'
      subst h'
      refine ⟨?_, ?_, ?_, ?_⟩
      · split_ifs <;> rfl
      · split_ifs <;> rfl
      · intro hge
        split_ifs <;> first | rfl | omega
      · intro hlt
        split_ifs <;> first | rfl | omega
    · intro h1 h2
      split_ifs with hg hu <;>
        first
          | rfl
          | (exfalso
             rw [if_neg hg, if_neg hu] at h2
             simp at h2
             omega)

/-- A concrete enabled configuration with positive retries, used as the
witness input for the amended C7 law. -/
def demoHealthCfg : HealthCheckConfig :=
  { checkType := .script "/bin/check", timeout := 5000,
    interval := 30000, retries := 3, enabled := true }

/-- Witness for C7: the update law applied to a concrete enabled
configuration, a failing probe result, and the initial (Unknown) status. -/
theorem C7_health_check_update_witness :
    (healthCheckStep demoHealthCfg HealthStatus.initial (.error "probe failed") 7).consecutiveFailures
      = HealthStatus.initial.consecutiveFailures + 1 ∧
    (healthCheckStep demoHealthCfg HealthStatus.initial (.error "probe failed") 7).state
      = .unhealthy := by
  have h := (C7_health_check_update demoHealthCfg HealthStatus.initial
    (.error "probe failed") 7 rfl).2.2.2.1 "probe failed" rfl
  refine ⟨h.1, ?_⟩
  have hlt := h.2.2.2 (by decide)
  simpa [HealthStatus.initial] using hlt

/-- `ProcessState` (process.rs lines 20-33). -/
inductive ProcessState where
  | starting
  | online
  | stopping
  | stopped
  | errored
  | restarting
  deriving DecidableEq, Repr

/-- `ExecMode` (config.rs lines 510-517). -/
inductive ExecMode where
  | fork
  | cluster
  deriving DecidableEq, Repr

/-- `ProcessConfig` (config.rs lines 226-332).  Log/pid path fields and the
unimplemented `watch`/`user`/`group` fields are pure I/O configuration not
touched by any claim and are omitted; `namespace` is a Lean keyword and is
rendered `nsName`. -/
structure ProcessConfig where
  name : String
  script : String
  args : List String
  env : List (String × String)
  instances : ℕ
  execMode : ExecMode
  autorestart : Bool
  maxRestarts : ℕ
  minUptime : ℕ
  restartDelay : ℕ
  killTimeout : ℕ
  maxMemoryRestart : Option ℕ
  nsName : String
  port : Option PortConfig
  healthCheck : Option HealthCheckConfig
  deriving DecidableEq, Repr

/-- `ProcessConfig::default` (config.rs lines 525-554) with the constants
of lib.rs lines 148-157. -/
def ProcessConfig.default : ProcessConfig :=
  { name := "", script := "", args := [], env := [], instances := 1,
    execMode := .fork, autorestart := true, maxRestarts := 16,
    minUptime := 1000, restartDelay := 0, killTimeout := 1600,
    maxMemoryRestart := none, nsName := "default", port := none,
    healthCheck := none }

/-- `HashMap::insert` on the environment map: replaces any existing binding
of the key. -/
def envInsert (env : List (String × String)) (k v : String) : List (String × String) :=
  (k, v) :: env.filter (fun kv => kv.1 ≠ k)

/-- `HashMap::get` on the environment map. -/
def envLookup (env : List (String × String)) (k : String) : Option String :=
  (env.find? (fun kv => decide (kv.1 = k))).map (·.2)

/-- `Process` (process.rs lines 157-191).  `child` models the
`Option<Child>` handle, carrying the OS pid of the handle; `storedPid` is
the `stored_pid` field referenced by manager.rs (`set_stored_pid`,
`stored_pid`) whose declaration is not under src/ — modelled from the
spec's `last_known_pid` metadata field (§4.7) as a plain optional pid.
`monitoring` is flattened to the one sampled figure the claims use. -/
structure Process where
  id : ℕ
  config : ProcessConfig
  state : ProcessState
  child : Option ℕ
  startedAt : Option ℕ
  restarts : ℕ
  exitCode : Option Int
  processError : Option String
  instanceNum : Option ℕ
  assignedPort : Option ℕ
  storedPid : Option ℕ
  memoryUsage : ℕ
  deriving DecidableEq, Repr

/-- `Process::new` (process.rs lines 245-259); the fresh UUID becomes the
supplied fresh `id`. -/
def Process.new (config : ProcessConfig) (id : ℕ) : Process :=
  { id := id, config := config, state := .stopped, child := none,
    startedAt := none, restarts := 0, exitCode := none, processError := none,
    instanceNum := none, assignedPort := none, storedPid := none,
    memoryUsage := 0 }

/-- `Process::is_running` (process.rs lines 304-306). -/
def Process.isRunning (p : Process) : Bool :=
  match p.state with
  | .online | .starting => true
  | _ => false

/-- `Process::set_state` (process.rs lines 309-314): entering `Online`
stamps `started_at` only when it is unset. -/
def Process.setState (p : Process) (s : ProcessState) (now : ℕ) : Process :=
  let q := { p with state := s }
  if s = .online ∧ q.startedAt = none then { q with startedAt := some now } else q

/-- `Process::pid` (process.rs lines 600-602): derived from the child
handle only; `None` whenever the handle is absent. -/
def Process.pid (p : Process) : Option ℕ :=
  p.child

/-- `Process::should_auto_restart` (process.rs lines 628-632). -/
def Process.shouldAutoRestart (p : Process) : Bool :=
  p.config.autorestart && decide (p.state = .stopped)
    && decide (p.config.maxRestarts > p.restarts)

/-- Embeds `Process::start_with_logs` (process.rs lines 371-472).  All the
command preparation and log-file redirection is I/O; the embedded function
keeps the state machine: the already-running guard, `Starting`, and the
two spawn outcomes, supplied as `spawnRes` (`some pid` iff `cmd.spawn()`
succeeded). -/
def Process.startRun (p : Process) (spawnRes : Option ℕ) (now : ℕ) :
    Except Err Unit × Process :=
  if p.isRunning then (.error (.alreadyRunning p.config.name), p)
  else
    let p1 := p.setState .starting now
    match spawnRes with
    | some pid =>
      let p2 := { p1 with child := some pid }
      let p3 := p2.setState .online now
      (.ok (), { p3 with processError := none })
    | none =>
      let p2 := p1.setState .errored now
      (.error (.startFailed p.config.name),
        { p2 with processError := some "Failed to start" })

/-- Signals the embedded `Process::stop` would emit (process.rs: the
`signal::kill(pid, SIGTERM)` on line 492 and the `child.kill()` SIGKILL on
line 529). -/
inductive Signal where
  | sigterm (pid : ℕ)
  | sigkill (pid : ℕ)
  deriving DecidableEq, Repr

/-- OS outcome of the graceful-shutdown wait in `Process::stop`
(process.rs lines 503-540): the child exits within the 10 s timeout with a
code (`graceful`), the wait itself errors (`waitFailed`), the timeout
elapses and the force kill succeeds with/without a second wait result
(`forcedKilled` / `forcedKilledNoWait`), or the force kill errors
(`killFailed`). -/
inductive StopOutcome where
  | graceful (code : Option Int)
  | waitFailed
  | forcedKilled (code : Option Int)
  | forcedKilledNoWait
  | killFailed
  deriving DecidableEq, Repr

/-- Embeds `Process::stop` (process.rs lines 475-546).  Returns the
`Result`, the updated process, and the signals sent.  Mirrors the source:
early `Ok` when not running; `Stopping`; `child.take()`; on a present child
SIGTERM is sent and the wait outcome decides the rest; finally `Stopped`
with `started_at` cleared on every successful path. -/
def Process.stopRun (p : Process) (outcome : StopOutcome) :
    Except Err Unit × Process × List Signal :=
  if !p.isRunning then (.ok (), p, [])
  else
    let p1 := p.setState .stopping 0
    match p1.child with
    | none =>
      (.ok (), { p1.setState .stopped 0 with startedAt := none }, [])
    | some pid =>
      let p2 := { p1 with child := none }
      match outcome with
      | .graceful code =>
        (.ok (), { Process.setState { p2 with exitCode := code } .stopped 0
                    with startedAt := none }, [.sigterm pid])
      | .waitFailed =>
        (.error (.stopFailed p.config.name), p2, [.sigterm pid])
      | .forcedKilled code =>
        (.ok (), { Process.setState { p2 with exitCode := code } .stopped 0
                    with startedAt := none }, [.sigterm pid, .sigkill pid])
      | .forcedKilledNoWait =>
        (.ok (), { p2.setState .stopped 0 with startedAt := none },
          [.sigterm pid, .sigkill pid])
      | .killFailed =>
        (.error (.stopFailed p.config.name), p2, [.sigterm pid, .sigkill pid])

/-- OS outcome of `child.try_wait()` in `Process::check_status`
(process.rs lines 566-597). -/
inductive ChildStatus where
  | exited (code : Option Int)
  | stillRunning
  | waitErr
  deriving DecidableEq, Repr

/-- Embeds `Process::check_status` (process.rs lines 566-597): with no
child handle it answers `Ok(false)` without touching the record. -/
def Process.checkStatusRun (p : Process) (cs : ChildStatus) :
    Except Err Bool × Process :=
  match p.child with
  | some _ =>
    match cs with
    | .exited code =>
      (.ok false,
        { Process.setState { p with exitCode := code } .stopped 0 with
            child := none, startedAt := none })
    | .stillRunning => (.ok true, p)
    | .waitErr =>
      (.ok false,
        { p.setState .errored 0 with
            processError := some "Status check failed", child := none })
  | none => (.ok false, p)

/-- Embeds `Process::restart` (process.rs lines 549-563).  The source sets
`Restarting` *before* testing `is_running()`, so the `stop()` call is dead
code (`Restarting` is not a running state); the old child handle is never
stopped and is simply overwritten by the new spawn. -/
def Process.restartRun (p : Process) (outcome : StopOutcome)
    (spawnRes : Option ℕ) (now : ℕ) : Except Err Unit × Process :=
  let p1 := p.setState .restarting now
  let stopped := if p1.isRunning then Process.stopRun p1 outcome else (.ok (), p1, [])
  match stopped with
  | (.error e, p2, _) => (.error e, p2)
  | (.ok _, p2, _) =>
    let p3 := { p2 with restarts := p2.restarts + 1 }
    Process.startRun p3 spawnRes now

/-- The crash phase of `ProcessManager::check_all_processes`
(manager.rs lines 1487-1506): a record is scheduled for restart iff
`check_status()` answered `Ok(false)` and `config.autorestart` is set —
`restart_count`, `max_restarts` and `min_uptime` are never consulted. -/
def monitorCrashCandidate (p : Process) (cs : ChildStatus) : Bool :=
  match Process.checkStatusRun p cs with
  | (.ok isRunning, _) => !isRunning && p.config.autorestart
  | (.error _, _) => false

/-- A record whose restart budget is exhausted: `restarts = max_restarts`,
dead (no child), `autorestart = true`. -/
def exhaustedProc : Process :=
  { Process.new { ProcessConfig.default with name := "svc", script := "/bin/svc" } 0
      with restarts := 16 }

/-- C1 (code bug): the monitoring loop's auto-restart decision ignores the
eligibility predicate.  For a record with `restart_count = max_restarts`
(so `should_auto_restart` is false and the spec forbids a restart), the
loop still schedules it, and executing the scheduled `restart()` pushes
`restart_count` past `max_restarts`; the decision is also independent of
`min_uptime`, so no stable-run reset exists. -/
theorem C1_monitor_ignores_restart_limit :
    ∀ cs : ChildStatus,
      monitorCrashCandidate exhaustedProc cs = true ∧
      exhaustedProc.shouldAutoRestart = false ∧
      exhaustedProc.restarts = exhaustedProc.config.maxRestarts ∧
      (Process.restartRun exhaustedProc (.graceful none) (some 4242) 9).2.restarts
          = exhaustedProc.config.maxRestarts + 1 ∧
      (∀ m : ℕ,
        monitorCrashCandidate
          { exhaustedProc with
              config := { exhaustedProc.config with minUptime := m } } cs
          = monitorCrashCandidate exhaustedProc cs) := by
  intro cs
  refine ⟨rfl, by decide, by decide, by decide, fun m => rfl⟩

/-- C10: `Process::stop` on a running record whose child handle is absent
(as after PID-file re-attachment during startup recovery) sends no signal,
records no exit code, still moves the record to `Stopped`, clears
`started_at`, and returns `Ok`. -/
theorem C10_stop_without_child (p : Process) (outcome : StopOutcome)
    (h1 : p.isRunning = true) (h2 : p.child = none) :
    Process.stopRun p outcome
      = (.ok (), { p with state := .stopped, startedAt := none }, []) ∧
    ({ p with state := ProcessState.stopped, startedAt := none } : Process).exitCode
      = p.exitCode := by
  constructor
  · simp [Process.stopRun, Process.setState, h1, h2]
  · rfl

/-- Witness input for C10: a record re-attached from a PID file — `Online`,
a stored pid, but no child handle. -/
def recoveredDemo : Process :=
  { Process.new { ProcessConfig.default with name := "svc", script := "/bin/svc" } 1
      with state := .online, startedAt := some 3, storedPid := some 777 }

/-- Witness for C10 at the concrete re-attached record. -/
theorem C10_stop_without_child_witness :
    Process.stopRun recoveredDemo (.graceful (some 0))
      = (.ok (), { recoveredDemo with state := .stopped, startedAt := none }, []) :=
  (C10_stop_without_child recoveredDemo (.graceful (some 0)) rfl rfl).1

/-- `HashMap::get` on an association list (the embedded shape of the
`processes` and `name_to_id` maps). -/
def alistGet {α β : Type} [DecidableEq α] (l : List (α × β)) (k : α) : Option β :=
  (l.find? (fun r => decide (r.1 = k))).map (·.2)

lemma alistGet_eq_some_of_mem {α β : Type} [DecidableEq α]
    (l : List (α × β)) (h : (l.map Prod.fst).Nodup) (k : α) (b : β)
    (hm : (k, b) ∈ l) : alistGet l k = some b := by
  induction l with
  | nil => cases hm
  | cons x xs ih =>
    simp only [List.map_cons, List.nodup_cons] at h
    rcases List.mem_cons.mp hm with h1 | h1
    · subst h1
      simp only [alistGet]
      rw [List.find?_cons_of_pos _ (by simp)]
      rfl
    · have hx : x.1 ≠ k := by
        intro hk
        exact h.1 (hk ▸ List.mem_map_of_mem Prod.fst h1)
      simp only [alistGet]
      rw [List.find?_cons_of_neg _ (by simpa using hx)]
      exact ih h.2 h1

lemma mem_of_alistGet_eq_some {α β : Type} [DecidableEq α]
    (l : List (α × β)) (k : α) (b : β) (h : alistGet l k = some b) :
    (k, b) ∈ l := by
  simp only [alistGet, Option.map_eq_some'] at h
  obtain ⟨r, hr, hb⟩ := h
  have hmem := List.mem_of_find?_eq_some hr
  have hkey := List.find?_some hr
  simp only [decide_eq_true_eq] at hkey
  have : r = (k, b) := by
    cases r
    simp_all
  exact this ▸ hmem

/-- The memory-limit phase of `ProcessManager::check_all_processes`
(manager.rs lines 1449-1482): collect `(id, pid)` for every record with a
live pid, and schedule for restart each one whose record has
`max_memory_restart` set and whose sampled `memory_usage`, compared *after
integer division to whole MiB* (`/ 1024 / 1024`), strictly exceeds the
limit in MiB.  `metrics` is the `monitoring_data` map of
`update_process_metrics`, keyed by OS pid. -/
def memoryRestartCandidates (records : List (ℕ × Process))
    (metrics : ℕ → Option ℕ) : List ℕ :=
  let pids := records.filterMap
    (fun idp => (idp.2.pid).map (fun pid => (idp.1, pid)))
  pids.filterMap (fun ip =>
    match alistGet records ip.1 with
    | some proc =>
      match proc.config.maxMemoryRestart with
      | some maxMemory =>
        match metrics ip.2 with
        | some memUsage =>
          if memUsage / 1024 / 1024 > maxMemory / 1024 / 1024
          then some ip.1 else none
        | none => none
      | none => none
    | none => none)

/-- A record with a 1-byte memory limit and a live pid. -/
def memDemoProc : Process :=
  { Process.new
      { ProcessConfig.default with
          name := "m", script := "/bin/m", maxMemoryRestart := some 1 } 0
      with state := .online, child := some 50 }

/-- C2 counterexample: the record has `max_memory_restart = 1` byte and a
sampled memory usage of 2 bytes — strictly above the limit in bytes — yet
the reconcile pass marks nothing, because the source compares whole-MiB
quotients (`2/1024/1024 = 0 > 0 = 1/1024/1024` is false). -/
theorem C2_memory_mark_not_bytewise :
    (2 : ℕ) > 1 ∧
    memDemoProc.config.maxMemoryRestart = some 1 ∧
    memoryRestartCandidates [(0, memDemoProc)]
      (fun pid => if pid = 50 then some 2 else none) = [] := by
  refine ⟨by decide, rfl, rfl⟩

/-- C2 (amended): during a reconcile pass a record with
`max_memory_restart` set is marked for restart iff it has a live pid, a
sampled memory value for that pid, and the sampled memory *in whole MiB*
(integer division by 1024 twice) strictly exceeds `max_memory_restart` in
whole MiB. -/
theorem C2_memory_threshold (records : List (ℕ × Process))
    (metrics : ℕ → Option ℕ) (hnd : (records.map Prod.fst).Nodup) (id : ℕ) :
    id ∈ memoryRestartCandidates records metrics ↔
      ∃ proc pid maxMemory memUsage,
        (id, proc) ∈ records ∧ proc.pid = some pid ∧
        proc.config.maxMemoryRestart = some maxMemory ∧
        metrics pid = some memUsage ∧
        memUsage / 1024 / 1024 > maxMemory / 1024 / 1024 := by
  constructor
  · intro h
    simp only [memoryRestartCandidates, List.mem_filterMap] at h
    obtain ⟨ip, ⟨idp, hidp, hmap⟩, hsome⟩ := h
    rcases hget : alistGet records ip.1 with _ | proc
    · rw [hget] at hsome; dsimp only at hsome; cases hsome
    rw [hget] at hsome
    dsimp only at hsome
    rcases hmax : proc.config.maxMemoryRestart with _ | maxMemory
    · rw [hmax] at hsome; dsimp only at hsome; cases hsome
    rw [hmax] at hsome
    dsimp only at hsome
    rcases hmet : metrics ip.2 with _ | memUsage
    · rw [hmet] at hsome; dsimp only at hsome; cases hsome
    rw [hmet] at hsome
    dsimp only at hsome
    by_cases hcmp : memUsage / 1024 / 1024 > maxMemory / 1024 / 1024
    swap
    · rw [if_neg hcmp] at hsome; cases hsome
    rw [if_pos hcmp] at hsome
    injection hsome with hid
    subst hid
    have hmem : (ip.1, proc) ∈ records := mem_of_alistGet_eq_some records ip.1 proc hget
    rcases hpid : idp.2.pid with _ | pid
    · rw [hpid] at hmap; cases hmap
    rw [hpid] at hmap
    injection hmap with hpair
    have hkey : idp.1 = ip.1 := congrArg Prod.fst hpair
    have hpidval : pid = ip.2 := congrArg Prod.snd hpair
    have hidp2 : (ip.1, idp.2) ∈ records := by
      rw [← hkey]
      cases idp
      exact hidp
    have hsameproc : idp.2 = proc := by
      have h1 := alistGet_eq_some_of_mem records hnd ip.1 idp.2 hidp2
      rw [hget] at h1
      injection h1 with h1
      exact h1.symm
    refine ⟨proc, ip.2, maxMemory, memUsage, hmem, ?_, hmax, hmet, hcmp⟩
    rw [← hsameproc, hpid, hpidval]
  · rintro ⟨proc, pid, maxMemory, memUsage, hmem, hpid, hmax, hmet, hcmp⟩
    simp only [memoryRestartCandidates, List.mem_filterMap]
    refine ⟨(id, pid), ⟨(id, proc), hmem, ?_⟩, ?_⟩
    · show Option.map (fun p0 => (id, p0)) proc.pid = some (id, pid)
      rw [hpid]
      rfl
    · have hget := alistGet_eq_some_of_mem records hnd id proc hmem
      show (match alistGet records id with
        | some proc =>
          match proc.config.maxMemoryRestart with
          | some maxMemory =>
            match metrics pid with
            | some memUsage =>
              if memUsage / 1024 / 1024 > maxMemory / 1024 / 1024
              then some id else none
            | none => none
          | none => none
        | none => none) = some id
      rw [hget]
      dsimp only
      rw [hmax, hmet]
      dsimp only
      rw [if_pos hcmp]

/-- A record with a zero-byte limit actually marked for restart — input for
the C2 witness. -/
def memDemoProc2 : Process :=
  { Process.new
      { ProcessConfig.default with
          name := "m2", script := "/bin/m", maxMemoryRestart := some 0 } 1
      with state := .online, child := some 51 }

/-- Witness for C2: the amended threshold theorem applied to a record with
limit 0 and a 1 MiB sample, which is marked. -/
theorem C2_memory_threshold_witness :
    7 ∈ memoryRestartCandidates [(7, memDemoProc2)]
      (fun pid => if pid = 51 then some 1048576 else none) :=
  (C2_memory_threshold [(7, memDemoProc2)]
      (fun pid => if pid = 51 then some 1048576 else none) (by simp) 7).mpr
    ⟨memDemoProc2, 51, 0, 1048576, List.mem_singleton.mpr rfl, rfl, rfl, rfl,
      by decide⟩

/-- `ProcessConfig::validate` (config.rs lines 652-663). -/
def ProcessConfig.validate (c : ProcessConfig) : Except Err Unit :=
  if c.name = "" then .error (.invalidConfig "Process name cannot be empty")
  else if c.script = "" then .error (.invalidConfig "Script/command cannot be empty")
  else if c.instances = 0 then
    .error (.invalidConfig "Number of instances must be greater than 0")
  else .ok ()

/-- The `ProcessManager` mutable state behind its locks (manager.rs lines
123-134): the `processes` map, the `name_to_id` map, and the
`allocated_ports` set; `nextId` is the fresh-UUID source. -/
structure ManagerState where
  processes : List (ℕ × Process)
  nameToId : List (String × ℕ)
  allocatedPorts : Finset ℕ
  nextId : ℕ
  deriving DecidableEq

/-- The empty manager (no persisted configs). -/
def ManagerState.empty : ManagerState :=
  { processes := [], nameToId := [], allocatedPorts := ∅, nextId := 0 }

/-- `HashMap` value update at a key (the effect of mutating through
`get_mut`). -/
def alistSet {α β : Type} [DecidableEq α] (l : List (α × β)) (k : α) (b : β) :
    List (α × β) :=
  l.map (fun r => if r.1 = k then (k, b) else r)

/-- Embeds `ProcessManager::start_single_instance` (manager.rs lines
272-330).  File-system side effects (log dirs, PID file, persisted config
and metadata) are I/O; the state machine is kept: duplicate-name check,
port allocation (inserting `PORT` into the env), the spawn via
`start_with_logs`, `set_stored_pid`, and insertion into both maps.  On a
spawn failure the `?` operator propagates the error and the local process
is dropped — the port reserved moments earlier is left in
`allocated_ports`. -/
def startSingleInstance (st : ManagerState) (config : ProcessConfig)
    (spawnRes : Option ℕ) (now : ℕ) : Except Err ℕ × ManagerState :=
  if (alistGet st.nameToId config.name).isSome then
    (.error (.alreadyExists config.name), st)
  else
    let process0 := Process.new config st.nextId
    let allocRes : Except Err (Option ℕ) × Finset ℕ :=
      match config.port with
      | some portConfig =>
        match allocatePort portConfig st.allocatedPorts with
        | (.ok port, alloc') => (.ok (some port), alloc')
        | (.error e, alloc') => (.error e, alloc')
      | none => (.ok none, st.allocatedPorts)
    match allocRes with
    | (.error e, alloc') => (.error e, { st with allocatedPorts := alloc' })
    | (.ok assigned, alloc') =>
      let process1 :=
        match assigned with
        | some port =>
          { process0 with
              assignedPort := some port,
              config := { process0.config with
                env := envInsert process0.config.env "PORT" (toString port) } }
        | none => process0
      match Process.startRun process1 spawnRes now with
      | (.error e, _) => (.error e, { st with allocatedPorts := alloc' })
      | (.ok _, p2) =>
        let p3 :=
          match p2.pid with
          | some pid => { p2 with storedPid := some pid }
          | none => p2
        (.ok process0.id,
          { st with
              allocatedPorts := alloc',
              processes := (process0.id, p3) :: st.processes,
              nameToId := (config.name, process0.id) :: st.nameToId,
              nextId := st.nextId + 1 })

/-- Embeds `ProcessManager::stop_by_id` (manager.rs lines 423-434): stop
the record if present (keeping the mutations even when `stop` errors) and
remove its PID file (I/O). -/
def stopById (st : ManagerState) (processId : ℕ) (outcome : StopOutcome) :
    Except Err Unit × ManagerState :=
  match alistGet st.processes processId with
  | some process =>
    match Process.stopRun process outcome with
    | (.ok _, p', _) =>
      (.ok (), { st with processes := alistSet st.processes processId p' })
    | (.error e, p', _) =>
      (.error e, { st with processes := alistSet st.processes processId p' })
  | none => (.ok (), st)

/-- The per-instance config synthesis of `ProcessManager::start_cluster`
(manager.rs lines 349-360): name `"{base}-{i}"`, `instances = 1`, and the
env entries `PM2_INSTANCE_ID = i` and `NODE_APP_INSTANCE = i`. -/
def instanceConfig (config : ProcessConfig) (i : ℕ) : ProcessConfig :=
  { config with
      name := config.name ++ "-" ++ toString i,
      instances := 1,
      env := envInsert
        (envInsert config.env "PM2_INSTANCE_ID" (toString i))
        "NODE_APP_INSTANCE" (toString i) }

/-- The per-instance port selection of `start_cluster` (manager.rs lines
362-390).  The `Not enough ports` config error is rendered as
`notEnoughPorts`; note the source `return Err` here exits `start_cluster`
directly, *without* the cleanup loop. -/
def instancePort (portCfg : Option PortConfig) (cfgInstances i : ℕ) :
    Except Err (Option PortConfig) :=
  match portCfg with
  | some (PortConfig.auto lo hi) => .ok (some (.auto lo hi))
  | some (PortConfig.range lo hi) =>
    if i < hi - lo + 1 then .ok (some (.single (lo + i)))
    else .error (.notEnoughPorts lo hi cfgInstances)
  | some (PortConfig.single port) =>
    if i = 0 then .ok (some (.single port)) else .ok none
  | none => .ok none

/-- The cleanup loop of `start_cluster` (manager.rs lines 403-408): stop
every already-started instance via `stop_by_id`, ignoring stop errors. -/
def rollbackStop (st : ManagerState) (started : List ℕ)
    (outcomes : ℕ → StopOutcome) : ManagerState :=
  started.foldl (fun s pid => (stopById s pid (outcomes pid)).2) st

/-- The instance loop of `start_cluster` (manager.rs lines 348-413),
recursing on the number of remaining instances.  `spawns i` is the OS
spawn result for instance `i`; `outcomes` gives the stop outcomes used by
a rollback.  On an `instancePort` error the loop returns immediately (no
rollback, matching the source); on a `start_single_instance` error it
rolls back the started instances and returns the error. -/
def startClusterLoop (config : ProcessConfig) (spawns : ℕ → Option ℕ)
    (outcomes : ℕ → StopOutcome) (now : ℕ) :
    ℕ → ℕ → List ℕ → Option ℕ → ManagerState → Except Err ℕ × ManagerState
  | _, 0, _, firstId, st => (.ok (firstId.getD 0), st)
  | i, n + 1, started, firstId, st =>
    match instancePort config.port config.instances i with
    | .error e => (.error e, st)
    | .ok iport =>
      let icfg := { instanceConfig config i with port := iport }
      match startSingleInstance st icfg (spawns i) now with
      | (.ok pid, st') =>
        startClusterLoop config spawns outcomes now
          (i + 1) n (started ++ [pid]) (firstId <|> some pid) st'
      | (.error e, st') =>
        (.error e, rollbackStop st' started outcomes)

/-- Embeds `ProcessManager::start_cluster` (manager.rs lines 333-420):
pre-check every instance name for collisions, then run the instance
loop. -/
def startCluster (st : ManagerState) (config : ProcessConfig)
    (spawns : ℕ → Option ℕ) (outcomes : ℕ → StopOutcome) (now : ℕ) :
    Except Err ℕ × ManagerState :=
  match (List.range config.instances).find?
      (fun i => (alistGet st.nameToId (config.name ++ "-" ++ toString i)).isSome) with
  | some i => (.error (.alreadyExists (config.name ++ "-" ++ toString i)), st)
  | none => startClusterLoop config spawns outcomes now 0 config.instances [] none st

/-- Embeds `ProcessManager::start` (manager.rs lines 258-269): validate,
then dispatch on `instances == 1`. -/
def managerStart (st : ManagerState) (config : ProcessConfig)
    (spawns : ℕ → Option ℕ) (outcomes : ℕ → StopOutcome) (now : ℕ) :
    Except Err ℕ × ManagerState :=
  match config.validate with
  | .error e => (.error e, st)
  | .ok _ =>
    if config.instances = 1 then startSingleInstance st config (spawns 0) now
    else startCluster st config spawns outcomes now

/-- Whether a stop outcome is one of the successful paths of
`Process::stop`. -/
def StopOutcome.succeeds : StopOutcome → Bool
  | .graceful _ => true
  | .forcedKilled _ => true
  | .forcedKilledNoWait => true
  | .waitFailed => false
  | .killFailed => false

/-- The failing C6 input: a fresh manager, a config with `Single(5000)`,
and a spawn that fails. -/
def c6Cfg : ProcessConfig :=
  { ProcessConfig.default with
      name := "x", script := "/bin/x", port := some (.single 5000) }

/-- The process value `start_single_instance` hands to `start_with_logs`
for `c6Cfg`: port 5000 assigned and `PORT=5000` injected. -/
def c6Prepared : Process :=
  { Process.new { c6Cfg with env := envInsert c6Cfg.env "PORT" "5000" } 0 with
      assignedPort := some 5000 }

/-- C6 (code bug): when the spawn fails, `start_single_instance` returns
the error with port 5000 *still reserved* in `allocated_ports`, while no
record (and no name entry) owns it — the reservation is never released.
The transient process value does end `Errored` with an error message, as
`start_with_logs` sets, but it is dropped. -/
theorem C6_spawn_failure_keeps_port :
    (startSingleInstance ManagerState.empty c6Cfg none 1).1 = .error (.startFailed "x") ∧
    (startSingleInstance ManagerState.empty c6Cfg none 1).2.allocatedPorts = {5000} ∧
    (startSingleInstance ManagerState.empty c6Cfg none 1).2.processes = [] ∧
    (startSingleInstance ManagerState.empty c6Cfg none 1).2.nameToId = [] ∧
    (Process.startRun c6Prepared none 1).2.state = .errored ∧
    (Process.startRun c6Prepared none 1).2.processError = some "Failed to start" := by
  refine ⟨rfl, rfl, rfl, rfl, rfl, rfl⟩

lemma envLookup_envInsert_same (env : List (String × String)) (k v : String) :
    envLookup (envInsert env k v) k = some v := by
  simp [envInsert, envLookup, List.find?]

lemma find?_filter_ne (env : List (String × String)) (k k' : String) (h : k ≠ k') :
    (env.filter (fun kv => kv.1 ≠ k)).find? (fun kv => decide (kv.1 = k'))
      = env.find? (fun kv => decide (kv.1 = k')) := by
  induction env with
  | nil => rfl
  | cons e es ih =>
    by_cases he : e.1 = k'
    · have hek : e.1 ≠ k := fun hk => h (hk ▸ he)
      rw [List.filter_cons_of_pos (by simpa using hek)]
      rw [List.find?_cons_of_pos _ (by simpa using he),
        List.find?_cons_of_pos _ (by simpa using he)]
    · by_cases hek : e.1 = k
      · rw [List.filter_cons_of_neg (by simpa using hek)]
        rw [List.find?_cons_of_neg _ (by simpa using he)]
        exact ih
      · rw [List.filter_cons_of_pos (by simpa using hek)]
        rw [List.find?_cons_of_neg _ (by simpa using he),
          List.find?_cons_of_neg _ (by simpa using he)]
        exact ih

lemma envLookup_envInsert_ne (env : List (String × String)) (k k' v : String)
    (h : k ≠ k') : envLookup (envInsert env k v) k' = envLookup env k' := by
  simp only [envInsert, envLookup]
  rw [List.find?_cons_of_neg _ (by simpa using h)]
  rw [find?_filter_ne env k k' h]

lemma startRun_stopped_spawn_ok (p : Process) (hs : p.isRunning = false)
    (h0 : p.startedAt = none) (pid now : ℕ) :
    Process.startRun p (some pid) now =
      (.ok (),
        { p with state := .online, child := some pid,
                 startedAt := some now, processError := none }) := by
  simp [Process.startRun, hs, Process.setState, h0]

lemma startRun_stopped_spawn_fail (p : Process) (hs : p.isRunning = false) (now : ℕ) :
    Process.startRun p none now =
      (.error (.startFailed p.config.name),
        { p with state := .errored, processError := some "Failed to start" }) := by
  simp [Process.startRun, hs, Process.setState]

lemma allocatePort_single_ok (q port : ℕ) (A alloc' : Finset ℕ)
    (h : allocatePort (.single q) A = (.ok port, alloc')) : port = q := by
  by_cases hq : q ∈ A <;> simp [allocatePort, hq] at h
  exact h.1.symm

lemma allocatePort_error_shape (pc : PortConfig) (A : Finset ℕ) (e : Err)
    (alloc' : Finset ℕ) (h : allocatePort pc A = (.error e, alloc')) :
    alloc' = A ∧ (∀ lo hi k, e ≠ .notEnoughPorts lo hi k)
      ∧ (∀ name, e ≠ .startFailed name) ∧ (∀ name, e ≠ .alreadyExists name) := by
  cases pc with
  | single q =>
    by_cases hq : q ∈ A <;> simp [allocatePort, hq] at h
    exact ⟨h.2.symm, by simp [← h.1], by simp [← h.1], by simp [← h.1]⟩
  | range lo hi =>
    simp only [allocatePort] at h
    rcases hf : (List.range' lo (hi + 1 - lo)).find? (fun p => decide (p ∈ A)) with _ | q
    · rw [hf] at h; cases h
    · rw [hf] at h
      injection h with h1 h2
      injection h1 with h1
      exact ⟨h2.symm, by simp [← h1], by simp [← h1], by simp [← h1]⟩
  | auto lo hi =>
    simp only [allocatePort] at h
    rcases hf : autoScan A (List.range' lo (hi + 1 - lo)) with _ | pr
    · rw [hf] at h
      injection h with h1 h2
      injection h1 with h1
      exact ⟨h2.symm, by simp [← h1], by simp [← h1], by simp [← h1]⟩
    · rw [hf] at h
      cases h

lemma autoScan_some_eq (l : List ℕ) (A : Finset ℕ) (p : ℕ) (S : Finset ℕ)
    (h : autoScan A l = some (p, S)) : S = insert p A := by
  induction l with
  | nil => cases h
  | cons x xs ih =>
    by_cases hx : x ∈ A
    · simp only [autoScan, if_pos hx] at h
      exact ih h
    · simp only [autoScan, if_neg hx] at h
      injection h with h
      have h1 : x = p := congrArg Prod.fst h
      have h2 : insert x A = S := congrArg Prod.snd h
      rw [← h2, h1]

lemma allocatePort_ok_subset (pc : PortConfig) (A : Finset ℕ) (port : ℕ)
    (alloc' : Finset ℕ) (h : allocatePort pc A = (.ok port, alloc')) :
    A ⊆ alloc' := by
  cases pc with
  | single q =>
    by_cases hq : q ∈ A <;> simp [allocatePort, hq] at h
    rw [← h.2]
    exact Finset.subset_insert _ _
  | range lo hi =>
    simp only [allocatePort] at h
    rcases hf : (List.range' lo (hi + 1 - lo)).find?
        (fun p => decide (p ∈ A)) with _ | q
    · rw [hf] at h
      injection h with h1 h2
      rw [← h2]
      intro x hx
      rw [foldl_insert_mem]
      exact Or.inr hx
    · rw [hf] at h; cases h
  | auto lo hi =>
    simp only [allocatePort] at h
    rcases hf : autoScan A (List.range' lo (hi + 1 - lo)) with _ | pr
    · rw [hf] at h; cases h
    · rw [hf] at h
      rcases pr with ⟨pp, SS⟩
      injection h with h1 h2
      rw [← h2, autoScan_some_eq _ _ _ _ hf]
      exact Finset.subset_insert _ _

lemma startSingleInstance_ok (st : ManagerState) (cfg : ProcessConfig)
    (sp : Option ℕ) (now : ℕ) (retId : ℕ) (st' : ManagerState)
    (h : startSingleInstance st cfg sp now = (.ok retId, st')) :
    retId = st.nextId ∧ st'.nextId = st.nextId + 1 ∧
    st'.nameToId = (cfg.name, retId) :: st.nameToId ∧
    st.allocatedPorts ⊆ st'.allocatedPorts ∧
    ∃ proc,
      st'.processes = (retId, proc) :: st.processes ∧
      proc.config.name = cfg.name ∧
      proc.config.instances = cfg.instances ∧
      proc.state = .online ∧
      (∀ key, key ≠ "PORT" →
        envLookup proc.config.env key = envLookup cfg.env key) ∧
      (cfg.port = none → proc.assignedPort = none) ∧
      (∀ q, cfg.port = some (.single q) → proc.assignedPort = some q) := by
  rcases hname : (alistGet st.nameToId cfg.name).isSome with _ | _
  case true => simp [startSingleInstance, hname] at h
  simp only [startSingleInstance, hname, Bool.false_eq_true, if_false] at h
  rcases hport : cfg.port with _ | pc
  · rw [hport] at h
    dsimp only at h
    rcases sp with _ | pid
    · rw [startRun_stopped_spawn_fail _ (by rfl) now] at h
      dsimp only at h
      cases h
    · rw [startRun_stopped_spawn_ok _ (by rfl) (by rfl) pid now] at h
      dsimp only at h
      injection h with h1 h2
      injection h1 with h1
      subst h1
      subst h2
      refine ⟨rfl, rfl, rfl, Finset.Subset.refl _, ?_⟩
      refine ⟨_, rfl, rfl, rfl, rfl, fun key _ => rfl, fun _ => rfl, ?_⟩
      intro q hq
      cases hq
  · rw [hport] at h
    dsimp only at h
    rcases halloc : allocatePort pc st.allocatedPorts with ⟨ar, alloc'⟩
    rw [halloc] at h
    rcases ar with e | port
    · dsimp only at h
      cases h
    · dsimp only at h
      rcases sp with _ | pid
      · rw [startRun_stopped_spawn_fail _ (by rfl) now] at h
        dsimp only at h
        cases h
      · rw [startRun_stopped_spawn_ok _ (by rfl) (by rfl) pid now] at h
        dsimp only at h
        injection h with h1 h2
        injection h1 with h1
        subst h1
        subst h2
        refine ⟨rfl, rfl, rfl, allocatePort_ok_subset pc _ port alloc' halloc, ?_⟩
        refine ⟨_, rfl, rfl, rfl, rfl, ?_, ?_, ?_⟩
        · intro key hkey
          exact envLookup_envInsert_ne _ "PORT" key _ (fun hk => hkey hk.symm)
        · intro h0
          cases h0
        · intro q hq
          injection hq with hq
          subst hq
          have := allocatePort_single_ok q port st.allocatedPorts alloc' halloc
          subst this
          rfl

lemma startSingleInstance_error (st : ManagerState) (cfg : ProcessConfig)
    (sp : Option ℕ) (now : ℕ) (e : Err) (st' : ManagerState)
    (h : startSingleInstance st cfg sp now = (.error e, st')) :
    st'.processes = st.processes ∧ st'.nameToId = st.nameToId ∧
    st'.nextId = st.nextId ∧ st.allocatedPorts ⊆ st'.allocatedPorts ∧
    (∀ lo hi k, e ≠ .notEnoughPorts lo hi k) := by
  rcases hname : (alistGet st.nameToId cfg.name).isSome with _ | _
  case true =>
    simp only [startSingleInstance, hname, if_true] at h
    injection h with h1 h2
    injection h1 with h1
    subst h2
    exact ⟨rfl, rfl, rfl, Finset.Subset.refl _, by simp [← h1]⟩
  simp only [startSingleInstance, hname, Bool.false_eq_true, if_false] at h
  rcases hport : cfg.port with _ | pc
  · rw [hport] at h
    dsimp only at h
    rcases sp with _ | pid
    · rw [startRun_stopped_spawn_fail _ (by rfl) now] at h
      dsimp only at h
      injection h with h1 h2
      injection h1 with h1
      subst h2
      exact ⟨rfl, rfl, rfl, Finset.Subset.refl _, by simp [← h1]⟩
    · rw [startRun_stopped_spawn_ok _ (by rfl) (by rfl) pid now] at h
      dsimp only at h
      cases h
  · rw [hport] at h
    dsimp only at h
    rcases halloc : allocatePort pc st.allocatedPorts with ⟨ar, alloc'⟩
    rw [halloc] at h
    rcases ar with e' | port
    · dsimp only at h
      injection h with h1 h2
      injection h1 with h1
      subst h2
      obtain ⟨ha, hne, _, _⟩ := allocatePort_error_shape pc _ e' alloc' halloc
      subst ha
      exact ⟨rfl, rfl, rfl, Finset.Subset.refl _, by simp [← h1, hne]⟩
    · dsimp only at h
      rcases sp with _ | pid
      · rw [startRun_stopped_spawn_fail _ (by rfl) now] at h
        dsimp only at h
        injection h with h1 h2
        injection h1 with h1
        subst h2
        refine ⟨rfl, rfl, rfl, allocatePort_ok_subset pc _ port alloc' halloc, ?_⟩
        simp [← h1]
      · rw [startRun_stopped_spawn_ok _ (by rfl) (by rfl) pid now] at h
        dsimp only at h
        cases h

lemma alistGet_alistSet_ne {α β : Type} [DecidableEq α] (l : List (α × β))
    (k k' : α) (b : β) (h : k' ≠ k) :
    alistGet (alistSet l k b) k' = alistGet l k' := by
  induction l with
  | nil => rfl
  | cons x xs ih =>
    show alistGet ((if x.1 = k then (k, b) else x) :: alistSet xs k b) k' = _
    by_cases hxk : x.1 = k
    · rw [if_pos hxk]
      simp only [alistGet]
      rw [List.find?_cons_of_neg _
          (by simp only [decide_eq_true_eq]; exact fun hk => h hk.symm),
        List.find?_cons_of_neg _
          (by simp only [decide_eq_true_eq]; rw [hxk]; exact fun hk => h hk.symm)]
      exact ih
    · rw [if_neg hxk]
      by_cases hx : x.1 = k'
      · simp only [alistGet]
        rw [List.find?_cons_of_pos _ (by simpa using hx),
          List.find?_cons_of_pos _ (by simpa using hx)]
      · simp only [alistGet]
        rw [List.find?_cons_of_neg _ (by simpa using hx),
          List.find?_cons_of_neg _ (by simpa using hx)]
        exact ih

lemma mem_alistSet {α β : Type} [DecidableEq α] (l : List (α × β)) (k : α)
    (b : β) (x : α × β) (hx : x ∈ alistSet l k b) :
    (x ∈ l ∧ x.1 ≠ k) ∨ x = (k, b) := by
  obtain ⟨r, hr, hrx⟩ := List.mem_map.mp hx
  by_cases hk : r.1 = k
  · rw [if_pos hk] at hrx
    exact Or.inr hrx.symm
  · rw [if_neg hk] at hrx
    subst hrx
    exact Or.inl ⟨hr, hk⟩

lemma mem_alistSet_of_mem {α β : Type} [DecidableEq α] (l : List (α × β))
    (k : α) (b : β) (x : α × β) (hx : x ∈ l) :
    ∃ b', (x.1, b') ∈ alistSet l k b := by
  by_cases hk : x.1 = k
  · refine ⟨b, ?_⟩
    have := List.mem_map_of_mem (fun r => if r.1 = k then (k, b) else r) hx
    dsimp only at this
    rw [if_pos hk] at this
    rw [hk]
    exact this
  · refine ⟨x.2, ?_⟩
    have := List.mem_map_of_mem (fun r => if r.1 = k then (k, b) else r) hx
    dsimp only at this
    rw [if_neg hk] at this
    exact this

lemma stopRun_succeeds (p : Process) (oc : StopOutcome) (hr : p.isRunning = true)
    (hs : oc.succeeds = true) :
    (Process.stopRun p oc).1 = .ok () ∧ (Process.stopRun p oc).2.1.state = .stopped := by
  rcases hc : p.child with _ | pid
  · constructor <;> simp [Process.stopRun, hr, hc, Process.setState]
  · cases oc with
    | graceful c =>
      constructor <;> simp [Process.stopRun, hr, hc, Process.setState]
    | forcedKilled c =>
      constructor <;> simp [Process.stopRun, hr, hc, Process.setState]
    | forcedKilledNoWait =>
      constructor <;> simp [Process.stopRun, hr, hc, Process.setState]
    | waitFailed => simp [StopOutcome.succeeds] at hs
    | killFailed => simp [StopOutcome.succeeds] at hs

lemma stopById_spec (st : ManagerState) (pid0 : ℕ) (oc : StopOutcome)
    (proc : Process) (hget : alistGet st.processes pid0 = some proc)
    (hr : proc.isRunning = true) (hs : oc.succeeds = true) :
    ∃ p', (stopById st pid0 oc).2
        = { st with processes := alistSet st.processes pid0 p' }
      ∧ p'.state = .stopped := by
  obtain ⟨h1, h2⟩ := stopRun_succeeds proc oc hr hs
  rcases hsr : Process.stopRun proc oc with ⟨r, p', eff⟩
  rw [hsr] at h1 h2
  dsimp only at h1 h2
  subst h1
  exact ⟨p', by simp [stopById, hget, hsr], h2⟩

lemma rollbackStop_spec (outcomes : ℕ → StopOutcome)
    (hout : ∀ p, (outcomes p).succeeds = true) :
    ∀ (started : List ℕ) (st : ManagerState),
      started.Nodup →
      (∀ pid ∈ started,
        ∃ proc, alistGet st.processes pid = some proc ∧ proc.state = .online) →
      (rollbackStop st started outcomes).nameToId = st.nameToId ∧
      (rollbackStop st started outcomes).allocatedPorts = st.allocatedPorts ∧
      (rollbackStop st started outcomes).nextId = st.nextId ∧
      (∀ pid proc, (pid, proc) ∈ (rollbackStop st started outcomes).processes →
        ((pid, proc) ∈ st.processes ∧ pid ∉ started) ∨ proc.state = .stopped) ∧
      (∀ pid proc, (pid, proc) ∈ st.processes →
        ∃ proc', (pid, proc') ∈ (rollbackStop st started outcomes).processes) := by
  intro started
  induction started with
  | nil =>
    intro st _ _
    exact ⟨rfl, rfl, rfl,
      fun pid proc h => Or.inl ⟨h, by simp⟩,
      fun pid proc h => ⟨proc, h⟩⟩
  | cons p rest ih =>
    intro st hnd hstarted
    obtain ⟨proc, hget, honline⟩ := hstarted p (by simp)
    have hrun : proc.isRunning = true := by
      unfold Process.isRunning
      rw [honline]
    obtain ⟨p', hstep, hstopped⟩ :=
      stopById_spec st p (outcomes p) proc hget hrun (hout p)
    have hroll : rollbackStop st (p :: rest) outcomes
        = rollbackStop (stopById st p (outcomes p)).2 rest outcomes := rfl
    rw [hroll, hstep]
    have hnd' := List.nodup_cons.mp hnd
    have hstarted' : ∀ pid ∈ rest,
        ∃ proc2,
          alistGet ({ st with processes := alistSet st.processes p p' } :
            ManagerState).processes pid = some proc2 ∧ proc2.state = .online := by
      intro pid hpid
      obtain ⟨proc2, hg2, ho2⟩ := hstarted pid (List.mem_cons_of_mem _ hpid)
      have hne : pid ≠ p := fun hpp => hnd'.1 (hpp ▸ hpid)
      refine ⟨proc2, ?_, ho2⟩
      show alistGet (alistSet st.processes p p') pid = some proc2
      rw [alistGet_alistSet_ne _ _ _ _ hne]
      exact hg2
    obtain ⟨hn, ha, hx, hmem, hpers⟩ := ih _ hnd'.2 hstarted'
    refine ⟨hn, ha, hx, ?_, ?_⟩
    · intro pid proc3 hmem3
      rcases hmem pid proc3 hmem3 with ⟨hin1, hnotin⟩ | hst
      · rcases mem_alistSet _ _ _ _ hin1 with ⟨hin0, hne⟩ | heq
        · refine Or.inl ⟨hin0, ?_⟩
          intro hmemc
          rcases List.mem_cons.mp hmemc with h | h
          · exact hne (by simpa using h)
          · exact hnotin h
        · right
          rw [show proc3 = p' from congrArg Prod.snd heq]
          exact hstopped
      · exact Or.inr hst
    · intro pid proc3 hmem3
      obtain ⟨b', hb'⟩ := mem_alistSet_of_mem st.processes p p' (pid, proc3) hmem3
      exact hpers pid b' hb'

lemma alistGet_cons_ne {α β : Type} [DecidableEq α] (k : α) (b : β)
    (l : List (α × β)) (k' : α) (h : k' ≠ k) :
    alistGet ((k, b) :: l) k' = alistGet l k' := by
  simp only [alistGet]
  rw [List.find?_cons_of_neg _
    (by simp only [decide_eq_true_eq]; exact fun hk => h hk.symm)]

lemma instancePort_error (pc : Option PortConfig) (ci i : ℕ) (e : Err)
    (h : instancePort pc ci i = .error e) : ∃ lo hi, e = .notEnoughPorts lo hi ci := by
  rcases pc with _ | pc
  · cases h
  rcases pc with q | ⟨lo, hi⟩ | ⟨lo, hi⟩
  · by_cases h0 : i = 0 <;> simp [instancePort, h0] at h
  · by_cases hlt : i < hi - lo + 1 <;> simp [instancePort, hlt] at h
    exact ⟨lo, hi, h.symm⟩
  · simp [instancePort] at h

lemma startClusterLoop_ok (config : ProcessConfig) (spawns : ℕ → Option ℕ)
    (outcomes : ℕ → StopOutcome) (now : ℕ) :
    ∀ (n i : ℕ) (started : List ℕ) (firstId : Option ℕ) (st : ManagerState)
      (res : ℕ) (stF : ManagerState),
      startClusterLoop config spawns outcomes now i n started firstId st
        = (.ok res, stF) →
      stF.processes.length = st.processes.length + n ∧
      st.allocatedPorts ⊆ stF.allocatedPorts ∧
      (∀ x, x ∈ st.processes → x ∈ stF.processes) ∧
      (∀ j, i ≤ j → j < i + n →
        ∃ pid proc, (pid, proc) ∈ stF.processes ∧
          proc.config.name = config.name ++ "-" ++ toString j ∧
          proc.config.instances = 1 ∧
          envLookup proc.config.env "PM2_INSTANCE_ID" = some (toString j) ∧
          envLookup proc.config.env "NODE_APP_INSTANCE" = some (toString j) ∧
          proc.state = .online ∧
          (∀ lo hi, config.port = some (.range lo hi) →
            proc.assignedPort = some (lo + j)) ∧
          (∀ q, config.port = some (.single q) →
            proc.assignedPort = (if j = 0 then some q else none))) := by
  intro n
  induction n with
  | zero =>
    intro i started firstId st res stF h
    simp only [startClusterLoop] at h
    injection h with h1 h2
    subst h2
    exact ⟨rfl, Finset.Subset.refl _, fun x hx => hx,
      fun j hj1 hj2 => absurd hj2 (by omega)⟩
  | succ n ih =>
    intro i started firstId st res stF h
    simp only [startClusterLoop] at h
    rcases hip : instancePort config.port config.instances i with e | iport
    · rw [hip] at h
      dsimp only at h
      cases h
    · rw [hip] at h
      dsimp only at h
      rcases hstart : startSingleInstance st
          { instanceConfig config i with port := iport } (spawns i) now
        with ⟨r1, st1⟩
      rw [hstart] at h
      rcases r1 with e1 | pid1
      · dsimp only at h
        cases h
      · dsimp only at h
        obtain ⟨hlen, hports, hpers, hinst⟩ :=
          ih (i + 1) (started ++ [pid1]) (firstId <|> some pid1) st1 res stF h
        obtain ⟨hrid, hnid, hnames, hport1, proc, hprocs, hname, hinstances,
          honline, henv, hpnone, hpsingle⟩ :=
          startSingleInstance_ok st _ (spawns i) now pid1 st1 hstart
        refine ⟨?_, ?_, ?_, ?_⟩
        · rw [hlen, hprocs]
          simp only [List.length_cons]
          omega
        · exact Finset.Subset.trans hport1 hports
        · intro x hx
          exact hpers x (by rw [hprocs]; exact List.mem_cons_of_mem _ hx)
        · intro j hj1 hj2
          by_cases hji : j = i
          · subst hji
            refine ⟨pid1, proc,
              hpers _ (by rw [hprocs]; exact List.mem_cons_self _ _),
              hname, hinstances, ?_, ?_, honline, ?_, ?_⟩
            · exact (henv "PM2_INSTANCE_ID" (by decide)).trans
                ((envLookup_envInsert_ne _ "NODE_APP_INSTANCE" "PM2_INSTANCE_ID" _
                  (by decide)).trans (envLookup_envInsert_same _ _ _))
            · exact (henv "NODE_APP_INSTANCE" (by decide)).trans
                (envLookup_envInsert_same _ _ _)
            · intro lo hi hrange
              rw [hrange] at hip
              by_cases hlt : j < hi - lo + 1
              · simp only [instancePort, if_pos hlt] at hip
                injection hip with hip
                exact hpsingle (lo + j) hip.symm
              · simp only [instancePort, if_neg hlt] at hip
                cases hip
            · intro q hq
              rw [hq] at hip
              by_cases h0 : j = 0
              · simp only [instancePort, if_pos h0] at hip
                injection hip with hip
                rw [if_pos h0]
                exact hpsingle q hip.symm
              · simp only [instancePort, if_neg h0] at hip
                injection hip with hip
                rw [if_neg h0]
                exact hpnone hip.symm
          · exact hinst j (by omega) (by omega)

lemma startClusterLoop_range_fails (config : ProcessConfig)
    (spawns : ℕ → Option ℕ) (outcomes : ℕ → StopOutcome) (now : ℕ)
    (lo hi : ℕ) (hrange : config.port = some (.range lo hi)) :
    ∀ (n i : ℕ) (started : List ℕ) (firstId : Option ℕ) (st : ManagerState),
      1 ≤ n → hi - lo + 1 < i + n →
      ∃ e stF, startClusterLoop config spawns outcomes now i n started firstId st
        = (.error e, stF) := by
  intro n
  induction n with
  | zero => intro i started firstId st h1; omega
  | succ n ih =>
    intro i started firstId st _ hcov
    simp only [startClusterLoop]
    by_cases hlt : i < hi - lo + 1
    · rw [hrange]
      simp only [instancePort, if_pos hlt]
      rcases hstart : startSingleInstance st
          { instanceConfig config i with port := some (.single (lo + i)) }
          (spawns i) now with ⟨r1, st1⟩
      rcases r1 with e1 | pid1
      · exact ⟨e1, _, rfl⟩
      · dsimp only
        exact ih (i + 1) (started ++ [pid1]) (firstId <|> some pid1) st1
          (by omega) (by omega)
    · rw [hrange]
      simp only [instancePort, if_neg hlt]
      exact ⟨.notEnoughPorts lo hi config.instances, st, rfl⟩

lemma startClusterLoop_error (config : ProcessConfig) (spawns : ℕ → Option ℕ)
    (outcomes : ℕ → StopOutcome) (now : ℕ)
    (hout : ∀ p, (outcomes p).succeeds = true) :
    ∀ (n i : ℕ) (started : List ℕ) (firstId : Option ℕ) (st : ManagerState)
      (e : Err) (stF : ManagerState),
      started.Nodup →
      (∀ pid ∈ started, pid < st.nextId ∧
        ∃ proc, alistGet st.processes pid = some proc ∧ proc.state = .online) →
      startClusterLoop config spawns outcomes now i n started firstId st
        = (.error e, stF) →
      st.allocatedPorts ⊆ stF.allocatedPorts ∧
      (∀ x ∈ st.nameToId, x ∈ stF.nameToId) ∧
      (∀ pid proc, (pid, proc) ∈ st.processes →
        ∃ proc', (pid, proc') ∈ stF.processes) ∧
      ((∃ lo hi k, e = .notEnoughPorts lo hi k) →
        ∀ pid proc, (pid, proc) ∈ stF.processes →
          (pid, proc) ∈ st.processes ∨ proc.state = .online) ∧
      ((∀ lo hi k, e ≠ .notEnoughPorts lo hi k) →
        ∀ pid proc, (pid, proc) ∈ stF.processes →
          ((pid, proc) ∈ st.processes ∧ pid ∉ started) ∨ proc.state = .stopped) := by
  intro n
  induction n with
  | zero =>
    intro i started firstId st e stF _ _ h
    simp only [startClusterLoop] at h
    cases h
  | succ n ih =>
    intro i started firstId st e stF hnd hinv h
    simp only [startClusterLoop] at h
    rcases hip : instancePort config.port config.instances i with e' | iport
    · rw [hip] at h
      dsimp only at h
      injection h with h1 h2
      injection h1 with h1
      subst h1
      subst h2
      obtain ⟨lo, hi, hshape⟩ := instancePort_error _ _ _ _ hip
      refine ⟨Finset.Subset.refl _, fun x hx => hx,
        fun pid proc hm => ⟨proc, hm⟩, ?_, ?_⟩
      · intro _ pid proc hm
        exact Or.inl hm
      · intro hne
        exact absurd hshape (hne lo hi config.instances)
    · rw [hip] at h
      dsimp only at h
      rcases hstart : startSingleInstance st
          { instanceConfig config i with port := iport } (spawns i) now
        with ⟨r1, st1⟩
      rw [hstart] at h
      rcases r1 with e1 | pid1
      · -- inner start failed: roll back `started` over the error state
        dsimp only at h
        injection h with h1 h2
        injection h1 with h1
        subst h1
        obtain ⟨hp, hn, hx, hsub, hne1⟩ :=
          startSingleInstance_error st _ (spawns i) now e1 st1 hstart
        have hinv1 : ∀ pid ∈ started,
            ∃ proc, alistGet st1.processes pid = some proc ∧ proc.state = .online := by
          intro pid hpid
          obtain ⟨_, proc, hg, ho⟩ := hinv pid hpid
          exact ⟨proc, by rw [hp]; exact hg, ho⟩
        obtain ⟨rn, ra, rx, rmem, rpers⟩ :=
          rollbackStop_spec outcomes hout started st1 hnd hinv1
        subst h2
        refine ⟨?_, ?_, ?_, ?_, ?_⟩
        · rw [ra]; exact hsub
        · intro x hx2
          rw [rn, hn]
          exact hx2
        · intro pid proc hm
          exact rpers pid proc (by rw [hp]; exact hm)
        · intro hshape
          obtain ⟨lo, hi, k, hk⟩ := hshape
          exact absurd hk (hne1 lo hi k)
        · intro _ pid proc hm
          rcases rmem pid proc hm with ⟨hin, hnotin⟩ | hst
          · exact Or.inl ⟨by rw [← hp]; exact hin, hnotin⟩
          · exact Or.inr hst
      · -- inner start succeeded: recurse
        dsimp only at h
        obtain ⟨hrid, hnid, hnames, hport1, proc, hprocs, _, _, honline, _, _, _⟩ :=
          startSingleInstance_ok st _ (spawns i) now pid1 st1 hstart
        have hnd' : (started ++ [pid1]).Nodup := by
          rw [List.nodup_append]
          refine ⟨hnd, List.nodup_singleton _, ?_⟩
          intro a ha hb
          have := (hinv a ha).1
          rw [List.mem_singleton] at hb
          omega
        have hinv' : ∀ pid ∈ started ++ [pid1], pid < st1.nextId ∧
            ∃ proc2, alistGet st1.processes pid = some proc2 ∧ proc2.state = .online := by
          intro pid hpid
          rcases List.mem_append.mp hpid with hpid | hpid
          · obtain ⟨hlt, proc2, hg, ho⟩ := hinv pid hpid
            refine ⟨by omega, proc2, ?_, ho⟩
            rw [hprocs]
            rw [alistGet_cons_ne pid1 proc st.processes pid (by omega)]
            exact hg
          · rw [List.mem_singleton] at hpid
            subst hpid
            refine ⟨by omega, proc, ?_, honline⟩
            rw [hprocs]
            simp [alistGet, List.find?]
        obtain ⟨ihp, ihn, ihx, ihroll, ihstop⟩ :=
          ih (i + 1) (started ++ [pid1]) (firstId <|> some pid1) st1 e stF
            hnd' hinv' h
        refine ⟨?_, ?_, ?_, ?_, ?_⟩
        · exact Finset.Subset.trans hport1 ihp
        · intro x hx2
          exact ihn x (by rw [hnames]; exact List.mem_cons_of_mem _ hx2)
        · intro pid proc2 hm
          exact ihx pid proc2 (by rw [hprocs]; exact List.mem_cons_of_mem _ hm)
        · intro hshape pid proc2 hm
          rcases ihroll hshape pid proc2 hm with hin | hon
          · rw [hprocs] at hin
            rcases List.mem_cons.mp hin with heq | hin0
            · right
              rw [show proc2 = proc from congrArg Prod.snd heq]
              exact honline
            · exact Or.inl hin0
          · exact Or.inr hon
        · intro hne pid proc2 hm
          rcases ihstop hne pid proc2 hm with ⟨hin, hnotin⟩ | hst
          · rw [hprocs] at hin
            rcases List.mem_cons.mp hin with heq | hin0
            · exfalso
              apply hnotin
              rw [List.mem_append, List.mem_singleton]
              right
              exact congrArg Prod.fst heq
            · refine Or.inl ⟨hin0, fun hc => hnotin ?_⟩
              rw [List.mem_append]
              exact Or.inl hc
          · exact Or.inr hst

/-- C3 (amended): for `instances = k > 1`, a successful `start(config)`
creates exactly `k` records named `"{base}-{i}"` for `i ∈ [0,k)`, each
synthesized config having `instances = 1` and env containing
`PM2_INSTANCE_ID = i` and `NODE_APP_INSTANCE = i` (NOT `INSTANCE_ID` /
`APP_INSTANCE` as the spec writes); port distribution per instance: for
`Range(a,b)` the `i`-th instance is assigned port `a+i` and the start
fails when `k` exceeds the range length, and for `Single(p)` only
instance 0 receives `p` while the other instances run with no port. -/
theorem C3_cluster_synthesis (st : ManagerState) (cfg : ProcessConfig)
    (spawns : ℕ → Option ℕ) (outcomes : ℕ → StopOutcome) (now : ℕ) (k : ℕ)
    (hk : cfg.instances = k) (h2 : 1 < k) :
    (∀ fid stF, managerStart st cfg spawns outcomes now = (.ok fid, stF) →
      stF.processes.length = st.processes.length + k ∧
      (∀ i, i < k → ∃ pid proc, (pid, proc) ∈ stF.processes ∧
        proc.config.name = cfg.name ++ "-" ++ toString i ∧
        proc.config.instances = 1 ∧
        envLookup proc.config.env "PM2_INSTANCE_ID" = some (toString i) ∧
        envLookup proc.config.env "NODE_APP_INSTANCE" = some (toString i) ∧
        (∀ lo hi, cfg.port = some (.range lo hi) →
          proc.assignedPort = some (lo + i)) ∧
        (∀ q, cfg.port = some (.single q) →
          proc.assignedPort = (if i = 0 then some q else none)))) ∧
    (∀ lo hi, cfg.port = some (.range lo hi) → hi - lo + 1 < k →
      ∃ e, (managerStart st cfg spawns outcomes now).1 = .error e) := by
  constructor
  · intro fid stF h
    unfold managerStart at h
    rcases hv : cfg.validate with e0 | u
    · rw [hv] at h
      dsimp only at h
      cases h
    · rw [hv] at h
      dsimp only at h
      rw [if_neg (by omega)] at h
      unfold startCluster at h
      rcases hf : (List.range cfg.instances).find?
          (fun i => (alistGet st.nameToId (cfg.name ++ "-" ++ toString i)).isSome)
        with _ | i
      · rw [hf] at h
        dsimp only at h
        obtain ⟨hlen, _, _, hinst⟩ :=
          startClusterLoop_ok cfg spawns outcomes now cfg.instances 0 [] none
            st fid stF h
        constructor
        · rw [hlen, hk]
        · intro i hi
          obtain ⟨pid, proc, hmem, hname, hinst1, he1, he2, _, hr, hs⟩ :=
            hinst i (by omega) (by omega)
          exact ⟨pid, proc, hmem, hname, hinst1, he1, he2, hr, hs⟩
      · rw [hf] at h
        dsimp only at h
        cases h
  · intro lo hi hport hlen
    unfold managerStart
    rcases hv : cfg.validate with e0 | u
    · exact ⟨e0, rfl⟩
    · dsimp only
      rw [if_neg (by omega)]
      unfold startCluster
      rcases hf : (List.range cfg.instances).find?
          (fun i => (alistGet st.nameToId (cfg.name ++ "-" ++ toString i)).isSome)
        with _ | i
      · dsimp only
        obtain ⟨e, stF, hloop⟩ :=
          startClusterLoop_range_fails cfg spawns outcomes now lo hi hport
            cfg.instances 0 [] none st (by omega) (by omega)
        exact ⟨e, by rw [hloop]⟩
      · exact ⟨.alreadyExists (cfg.name ++ "-" ++ toString i), rfl⟩

/-- Concrete cluster config: 2 instances over port range 3000-3001. -/
def c3Cfg : ProcessConfig :=
  { ProcessConfig.default with
      name := "web", script := "/bin/w", instances := 2,
      execMode := .cluster, port := some (.range 3000 3001) }

/-- Spawn oracle: instance `i` spawns with pid `100 + i`. -/
def c3Spawns : ℕ → Option ℕ := fun i => some (100 + i)

/-- C3 counterexample: a successful cluster start whose synthesized
records contain no `INSTANCE_ID` or `APP_INSTANCE` env entries — the
source injects `PM2_INSTANCE_ID` and `NODE_APP_INSTANCE` instead, so the
claim as stated is false. -/
theorem C3_no_INSTANCE_ID_env :
    (managerStart ManagerState.empty c3Cfg c3Spawns
        (fun _ => .graceful none) 1).1 = .ok 0 ∧
    (managerStart ManagerState.empty c3Cfg c3Spawns
        (fun _ => .graceful none) 1).2.processes.length = 2 ∧
    ((managerStart ManagerState.empty c3Cfg c3Spawns
        (fun _ => .graceful none) 1).2.processes.all
      (fun r => (envLookup r.2.config.env "INSTANCE_ID").isNone
        && (envLookup r.2.config.env "APP_INSTANCE").isNone)) = true := by
  refine ⟨rfl, rfl, rfl⟩

/-- Witness for C3: both halves of the amended theorem applied to concrete
clusters — a successful 2-instance range cluster, and a 2-instance cluster
over a 1-port range that must fail. -/
theorem C3_cluster_synthesis_witness :
    ((managerStart ManagerState.empty c3Cfg c3Spawns
        (fun _ => .graceful none) 1).2.processes.length
      = ManagerState.empty.processes.length + 2) ∧
    (∃ e, (managerStart ManagerState.empty
        { c3Cfg with port := some (.range 3000 3000) } c3Spawns
        (fun _ => .graceful none) 1).1 = .error e) := by
  constructor
  · exact ((C3_cluster_synthesis ManagerState.empty c3Cfg c3Spawns
      (fun _ => .graceful none) 1 2 rfl (by decide)).1 0
      (managerStart ManagerState.empty c3Cfg c3Spawns
        (fun _ => .graceful none) 1).2 rfl).1
  · exact (C3_cluster_synthesis ManagerState.empty
      { c3Cfg with port := some (.range 3000 3000) } c3Spawns
      (fun _ => .graceful none) 1 2 rfl (by decide)).2 3000 3000 rfl (by decide)

/-- C4 (amended): if any per-instance step of a cluster start fails, the
first error is returned, but the rollback is partial: nothing created by
the already-started instances is removed — their port reservations and
name-index entries survive, and every pre-existing record survives.  When
the failure came from `start_single_instance`, the already-started
instances are stopped (records left in place, state `Stopped`); when it is
the insufficient-ports check of a `Range` cluster, there is no rollback at
all and previously started instances remain `Online`. -/
theorem C4_cluster_rollback_not_transactional (st : ManagerState) (cfg : ProcessConfig)
    (spawns : ℕ → Option ℕ) (outcomes : ℕ → StopOutcome) (now : ℕ)
    (e : Err) (stF : ManagerState)
    (hout : ∀ p, (outcomes p).succeeds = true)
    (h : startCluster st cfg spawns outcomes now = (.error e, stF)) :
    st.allocatedPorts ⊆ stF.allocatedPorts ∧
    (∀ x ∈ st.nameToId, x ∈ stF.nameToId) ∧
    (∀ pid proc, (pid, proc) ∈ st.processes →
      ∃ proc', (pid, proc') ∈ stF.processes) ∧
    ((∃ lo hi k, e = .notEnoughPorts lo hi k) →
      ∀ pid proc, (pid, proc) ∈ stF.processes →
        (pid, proc) ∈ st.processes ∨ proc.state = .online) ∧
    ((∀ lo hi k, e ≠ .notEnoughPorts lo hi k) →
      ∀ pid proc, (pid, proc) ∈ stF.processes →
        (pid, proc) ∈ st.processes ∨ proc.state = .stopped) := by
  unfold startCluster at h
  rcases hf : (List.range cfg.instances).find?
      (fun i => (alistGet st.nameToId (cfg.name ++ "-" ++ toString i)).isSome)
    with _ | i
  · rw [hf] at h
    dsimp only at h
    obtain ⟨hp, hn, hx, hroll, hstop⟩ :=
      startClusterLoop_error cfg spawns outcomes now hout cfg.instances 0 []
        none st e stF List.nodup_nil
        (fun pid hpid => absurd hpid (List.not_mem_nil _)) h
    refine ⟨hp, hn, hx, hroll, ?_⟩
    intro hne pid proc hm
    rcases hstop hne pid proc hm with ⟨hin, _⟩ | hst
    · exact Or.inl hin
    · exact Or.inr hst
  · rw [hf] at h
    dsimp only at h
    injection h with h1 h2
    injection h1 with h1
    subst h2
    refine ⟨Finset.Subset.refl _, fun x hx => hx,
      fun pid proc hm => ⟨proc, hm⟩, ?_, ?_⟩
    · intro hshape
      obtain ⟨lo, hi, k, hk⟩ := hshape
      rw [← h1] at hk
      cases hk
    · intro _ pid proc hm
      exact Or.inl hm

/-- A 2-instance cluster over the 1-port range 3000-3000: the second
instance triggers the insufficient-ports check. -/
def c4BadCfg : ProcessConfig :=
  { ProcessConfig.default with
      name := "c", script := "/bin/c", instances := 2,
      execMode := .cluster, port := some (.range 3000 3000) }

/-- C4 counterexample: the insufficient-ports failure of a cluster start
leaves the already-started instance's record in the map, `Online`, with
its name-index entry and its port reservation intact — contradicting the
claim that no record, name entry, or reservation remains. -/
theorem C4_rollback_leaves_state :
    (startCluster ManagerState.empty c4BadCfg c3Spawns
        (fun _ => .graceful none) 1).1
      = .error (.notEnoughPorts 3000 3000 2) ∧
    (startCluster ManagerState.empty c4BadCfg c3Spawns
        (fun _ => .graceful none) 1).2.processes.length = 1 ∧
    ((startCluster ManagerState.empty c4BadCfg c3Spawns
        (fun _ => .graceful none) 1).2.processes.map
      (fun r => r.2.state)) = [.online] ∧
    alistGet (startCluster ManagerState.empty c4BadCfg c3Spawns
        (fun _ => .graceful none) 1).2.nameToId "c-0" = some 0 ∧
    3000 ∈ (startCluster ManagerState.empty c4BadCfg c3Spawns
        (fun _ => .graceful none) 1).2.allocatedPorts := by
  refine ⟨rfl, rfl, rfl, rfl, by decide⟩

/-- A 2-instance cluster with no ports whose second spawn fails. -/
def c4Cfg2 : ProcessConfig :=
  { ProcessConfig.default with
      name := "d", script := "/bin/d", instances := 2, execMode := .cluster }

/-- Spawn oracle failing at instance 1. -/
def c4Spawns2 : ℕ → Option ℕ := fun i => if i = 0 then some 300 else none

/-- Witness for C4: the amended rollback theorem applied to a concrete
spawn failure at instance 1 — pre-existing port reservations survive, and
evaluation confirms the one already-started record is left in place,
merely stopped. -/
theorem C4_cluster_rollback_not_transactional_witness :
    ManagerState.empty.allocatedPorts ⊆
      (startCluster ManagerState.empty c4Cfg2 c4Spawns2
        (fun _ => .graceful none) 1).2.allocatedPorts ∧
    ((startCluster ManagerState.empty c4Cfg2 c4Spawns2
        (fun _ => .graceful none) 1).2.processes.map
      (fun r => r.2.state)) = [.stopped] :=
  ⟨(C4_cluster_rollback_not_transactional ManagerState.empty c4Cfg2 c4Spawns2
      (fun _ => .graceful none) 1 (.startFailed "d-1")
      (startCluster ManagerState.empty c4Cfg2 c4Spawns2
        (fun _ => .graceful none) 1).2
      (fun _ => rfl) rfl).1,
    rfl⟩

/-- Embeds `ProcessManager::load_process_config` (manager.rs lines
1731-1821) for one persisted config: create the record (`Stopped`),
restore metadata (`assigned_port`, `instance`, `stored_pid`; the persisted
id is the `id` parameter), then, if a PID file exists and the OS reports
the pid alive (`alive`), transition to `Online`, restore a deterministic
port for `Single`/`Range` specs, keep only the stored pid — the `Child`
handle cannot be restored — and fall back to a port detected from the logs
(`detected`); a dead or missing pid leaves the record `Stopped`.  The
port-table insertions are manager-level and not part of the record. -/
def loadRun (config : ProcessConfig) (id : ℕ)
    (massign minst mstored pidFile : Option ℕ) (alive : Bool)
    (detected : Option ℕ) (now : ℕ) : Process :=
  let p := Process.new config id
  let p := match massign with
    | some a => { p with assignedPort := some a }
    | none => p
  let p := match minst with
    | some i => { p with instanceNum := some i }
    | none => p
  let p := match mstored with
    | some s => { p with storedPid := some s }
    | none => p
  match pidFile with
  | some pid =>
    if alive then
      let p := p.setState .online now
      let p := match config.port with
        | some (.single port) => { p with assignedPort := some port }
        | some (.range lo _) => { p with assignedPort := some lo }
        | some (.auto _ _) => p
        | none => p
      let p := { p with storedPid := some pid }
      match p.assignedPort with
      | none =>
        match detected with
        | some dp => { p with assignedPort := some dp }
        | none => p
      | some _ => p
    else
      p.setState .stopped now
  | none => p.setState .stopped now

/-- One mutation of a single process record by the manager: the
controller operations (`start_with_logs`, `stop`, `check_status`,
`restart`), `set_stored_pid` (guarded by `process.pid()` as in
manager.rs lines 310-314 and 1528-1529), and the field updates the
manager performs before a (re)start (`assigned_port`, `instance`, and the
`PORT` env entry). -/
inductive ProcStep : Process → Process → Prop where
  | start (sp : Option ℕ) (now : ℕ) (p : Process) :
      ProcStep p (Process.startRun p sp now).2
  | stop (oc : StopOutcome) (p : Process) :
      ProcStep p (Process.stopRun p oc).2.1
  | check (cs : ChildStatus) (p : Process) :
      ProcStep p (Process.checkStatusRun p cs).2
  | restart (oc : StopOutcome) (sp : Option ℕ) (now : ℕ) (p : Process) :
      ProcStep p (Process.restartRun p oc sp now).2
  | setStored (pid : ℕ) (p : Process) (h : p.pid = some pid) :
      ProcStep p { p with storedPid := some pid }
  | setPort (port : Option ℕ) (p : Process) :
      ProcStep p { p with assignedPort := port }
  | setInstanceNum (i : Option ℕ) (p : Process) :
      ProcStep p { p with instanceNum := i }
  | setEnvPort (v : String) (p : Process) :
      ProcStep p
        { p with config :=
            { p.config with env := envInsert p.config.env "PORT" v } }

/-- The ways a record enters the store: freshly created by a start
(`Process::new`), or rebuilt from disk during startup recovery
(`load_process_config`). -/
def ProcInit (p : Process) : Prop :=
  (∃ cfg id, p = Process.new cfg id) ∨
  (∃ cfg id massign minst mstored pidFile alive detected now,
    p = loadRun cfg id massign minst mstored pidFile alive detected now)

/-- The amended per-record consistency invariant: an `Online` record has a
child handle or (when re-attached from a PID file) a stored pid; a
`Stopped` record has no child handle and `pid()` is `None`. -/
def RecordConsistent (p : Process) : Prop :=
  (p.state = .online → p.child.isSome ∨ p.storedPid.isSome) ∧
  (p.state = .stopped → p.child = none ∧ p.pid = none)

lemma procInit_consistent (p : Process) (h : ProcInit p) : RecordConsistent p := by
  rcases h with ⟨cfg, id, rfl⟩ | ⟨cfg, id, ma, mi, ms, pf, alive, det, now, rfl⟩
  · refine ⟨fun h => ?_, fun _ => ⟨rfl, rfl⟩⟩
    cases h
  · unfold loadRun
    rcases pf with _ | pid
    · constructor
      · intro h
        rcases ma with _ | a <;> rcases mi with _ | i <;> rcases ms with _ | s <;>
          simp_all [Process.setState, Process.new]
      · intro _
        rcases ma with _ | a <;> rcases mi with _ | i <;> rcases ms with _ | s <;>
          simp [Process.setState, Process.new, Process.pid]
    · rcases alive with _ | _
      · constructor
        · intro h
          rcases ma with _ | a <;> rcases mi with _ | i <;> rcases ms with _ | s <;>
            simp_all [Process.setState, Process.new]
        · intro _
          rcases ma with _ | a <;> rcases mi with _ | i <;> rcases ms with _ | s <;>
            simp [Process.setState, Process.new, Process.pid]
      · constructor
        · intro _
          right
          rcases ma with _ | a <;> rcases mi with _ | i <;> rcases ms with _ | s <;>
            rcases hcp : cfg.port with _ | (q | ⟨lo, hi⟩ | ⟨lo, hi⟩) <;>
            rcases det with _ | dp <;>
            simp [Process.setState, Process.new, hcp]
        · intro h
          exfalso
          rcases ma with _ | a <;> rcases mi with _ | i <;> rcases ms with _ | s <;>
            rcases hcp : cfg.port with _ | (q | ⟨lo, hi⟩ | ⟨lo, hi⟩) <;>
            rcases det with _ | dp <;>
            simp_all [Process.setState, Process.new, hcp]

lemma startRun_spawn_ok_general (p : Process) (hr : p.isRunning = false)
    (pid now : ℕ) :
    Process.startRun p (some pid) now =
      (.ok (),
        { p with
            state := .online, child := some pid,
            startedAt := if p.startedAt = none then some now else p.startedAt,
            processError := none }) := by
  by_cases h0 : p.startedAt = none
  · simp [Process.startRun, hr, Process.setState, h0]
  · simp [Process.startRun, hr, Process.setState, h0]

lemma bool_not_true_of_ne {b : Bool} (h : ¬b = true) : b = false := by
  cases b
  · rfl
  · exact absurd rfl h

lemma startRun_consistent (p : Process) (sp : Option ℕ) (now : ℕ)
    (h : RecordConsistent p) : RecordConsistent (Process.startRun p sp now).2 := by
  by_cases hr : p.isRunning = true
  · have heq : (Process.startRun p sp now).2 = p := by
      simp [Process.startRun, hr]
    rw [heq]
    exact h
  · have hr' : p.isRunning = false := bool_not_true_of_ne hr
    rcases sp with _ | pid
    · rw [startRun_stopped_spawn_fail p hr' now]
      refine ⟨fun h2 => ?_, fun h2 => ?_⟩ <;> cases h2
    · rw [startRun_spawn_ok_general p hr' pid now]
      refine ⟨fun _ => Or.inl rfl, fun h2 => ?_⟩
      cases h2

lemma stopRun_consistent (p : Process) (oc : StopOutcome)
    (h : RecordConsistent p) : RecordConsistent (Process.stopRun p oc).2.1 := by
  by_cases hr : p.isRunning = true
  · rcases hc : p.child with _ | pid
    · have heq : (Process.stopRun p oc).2.1
          = { p with state := .stopped, startedAt := none } := by
        simp [Process.stopRun, hr, hc, Process.setState]
      rw [heq]
      refine ⟨fun h2 => ?_, fun _ => ⟨hc, hc⟩⟩
      cases h2
    · cases oc with
      | graceful c =>
        have heq : (Process.stopRun p (.graceful c)).2.1
            = { p with
                  state := .stopped, child := none, exitCode := c,
                  startedAt := none } := by
          simp [Process.stopRun, hr, hc, Process.setState]
        rw [heq]
        refine ⟨fun h2 => ?_, fun _ => ⟨rfl, rfl⟩⟩
        cases h2
      | forcedKilled c =>
        have heq : (Process.stopRun p (.forcedKilled c)).2.1
            = { p with
                  state := .stopped, child := none, exitCode := c,
                  startedAt := none } := by
          simp [Process.stopRun, hr, hc, Process.setState]
        rw [heq]
        refine ⟨fun h2 => ?_, fun _ => ⟨rfl, rfl⟩⟩
        cases h2
      | forcedKilledNoWait =>
        have heq : (Process.stopRun p .forcedKilledNoWait).2.1
            = { p with state := .stopped, child := none, startedAt := none } := by
          simp [Process.stopRun, hr, hc, Process.setState]
        rw [heq]
        refine ⟨fun h2 => ?_, fun _ => ⟨rfl, rfl⟩⟩
        cases h2
      | waitFailed =>
        have heq : (Process.stopRun p .waitFailed).2.1
            = { p with state := .stopping, child := none } := by
          simp [Process.stopRun, hr, hc, Process.setState]
        rw [heq]
        refine ⟨fun h2 => ?_, fun h2 => ?_⟩ <;> cases h2
      | killFailed =>
        have heq : (Process.stopRun p .killFailed).2.1
            = { p with state := .stopping, child := none } := by
          simp [Process.stopRun, hr, hc, Process.setState]
        rw [heq]
        refine ⟨fun h2 => ?_, fun h2 => ?_⟩ <;> cases h2
  · have hr' : p.isRunning = false := bool_not_true_of_ne hr
    have heq : (Process.stopRun p oc).2.1 = p := by
      simp [Process.stopRun, hr']
    rw [heq]
    exact h

lemma checkStatusRun_consistent (p : Process) (cs : ChildStatus)
    (h : RecordConsistent p) : RecordConsistent (Process.checkStatusRun p cs).2 := by
  rcases hc : p.child with _ | pid
  · have heq : (Process.checkStatusRun p cs).2 = p := by
      simp [Process.checkStatusRun, hc]
    rw [heq]
    exact h
  · cases cs with
    | exited c =>
      have heq : (Process.checkStatusRun p (.exited c)).2
          = { p with
                state := .stopped, exitCode := c, child := none,
                startedAt := none } := by
        simp [Process.checkStatusRun, hc, Process.setState]
      rw [heq]
      refine ⟨fun h2 => ?_, fun _ => ⟨rfl, rfl⟩⟩
      cases h2
    | stillRunning =>
      have heq : (Process.checkStatusRun p .stillRunning).2 = p := by
        simp [Process.checkStatusRun, hc]
      rw [heq]
      exact h
    | waitErr =>
      have heq : (Process.checkStatusRun p .waitErr).2
          = { p with
                state := .errored,
                processError := some "Status check failed", child := none } := by
        simp [Process.checkStatusRun, hc, Process.setState]
      rw [heq]
      refine ⟨fun h2 => ?_, fun h2 => ?_⟩ <;> cases h2

lemma restartRun_consistent (p : Process) (oc : StopOutcome) (sp : Option ℕ)
    (now : ℕ) : RecordConsistent (Process.restartRun p oc sp now).2 := by
  unfold Process.restartRun
  have h1 : Process.setState p .restarting now = { p with state := .restarting } := by
    simp [Process.setState]
  rw [h1]
  show RecordConsistent
    (Process.startRun { p with state := .restarting, restarts := p.restarts + 1 } sp now).2
  rcases sp with _ | pid
  · rw [startRun_stopped_spawn_fail _ (by rfl) now]
    refine ⟨fun h3 => ?_, fun h3 => ?_⟩ <;> cases h3
  · rw [startRun_spawn_ok_general _ (by rfl) pid now]
    refine ⟨fun _ => Or.inl rfl, fun h3 => ?_⟩
    cases h3

lemma procStep_consistent (p q : Process) (h : RecordConsistent p)
    (hs : ProcStep p q) : RecordConsistent q := by
  cases hs with
  | start sp now _ => exact startRun_consistent p sp now h
  | stop oc _ => exact stopRun_consistent p oc h
  | check cs _ => exact checkStatusRun_consistent p cs h
  | restart oc sp now _ => exact restartRun_consistent p oc sp now
  | setStored pid _ hp =>
    exact ⟨fun _ => Or.inr rfl, fun h2 => h.2 h2⟩
  | setPort port _ =>
    exact ⟨fun h2 => h.1 h2, fun h2 => h.2 h2⟩
  | setInstanceNum i _ =>
    exact ⟨fun h2 => h.1 h2, fun h2 => h.2 h2⟩
  | setEnvPort v _ =>
    exact ⟨fun h2 => h.1 h2, fun h2 => h.2 h2⟩

/-- Config used by the C8 recovery scenario. -/
def loadedCfg : ProcessConfig :=
  { ProcessConfig.default with name := "r", script := "/bin/r" }

/-- A record produced by startup recovery from a live PID file: `Online`,
stored pid 777, and no child handle. -/
def recoveredLoaded : Process :=
  loadRun loadedCfg 3 none none none (some 777) true none 5

/-- C8 counterexample: startup recovery yields a reachable record that is
`Online` with no child handle and `pid() = None` (only a stored pid) —
refuting the claim that every Online record has a live child handle and a
non-None pid. -/
theorem C8_recovered_online_without_child :
    ProcInit recoveredLoaded ∧
    recoveredLoaded.state = .online ∧
    recoveredLoaded.child = none ∧
    recoveredLoaded.pid = none := by
  exact ⟨Or.inr ⟨loadedCfg, 3, none, none, none, some 777, true, none, 5, rfl⟩,
    rfl, rfl, rfl⟩

/-- C8 (amended): in every record state reachable by any sequence of
per-record manager operations from a created or recovered record, an
`Online` record has a child handle or — when it was re-attached from a PID
file during startup recovery — a stored pid without a child handle, and a
`Stopped` record has no child handle and `pid()` is `None`. -/
theorem C8_record_state_consistency (p0 p : Process) (h0 : ProcInit p0)
    (hr : Relation.ReflTransGen ProcStep p0 p) :
    (p.state = .online → p.child.isSome ∨ p.storedPid.isSome) ∧
    (p.state = .stopped → p.child = none ∧ p.pid = none) := by
  have hc : RecordConsistent p := by
    induction hr with
    | refl => exact procInit_consistent p0 h0
    | tail hsteps hstep ih => exact procStep_consistent _ _ ih hstep
  exact hc

/-- Witness for C8: the invariant at a freshly created record, reachable
in zero steps. -/
theorem C8_record_state_consistency_witness :
    ((Process.new loadedCfg 9).state = .online →
      (Process.new loadedCfg 9).child.isSome
        ∨ (Process.new loadedCfg 9).storedPid.isSome) ∧
    ((Process.new loadedCfg 9).state = .stopped →
      (Process.new loadedCfg 9).child = none ∧ (Process.new loadedCfg 9).pid = none) :=
  C8_record_state_consistency (Process.new loadedCfg 9) (Process.new loadedCfg 9)
    (Or.inl ⟨loadedCfg, 9, rfl⟩) Relation.ReflTransGen.refl

/-- The decimal digit characters emitted by Rust's `Display` for integers. -/
def digitChar (n : ℕ) : Char :=
  match n with
  | 0 => '0' | 1 => '1' | 2 => '2' | 3 => '3' | 4 => '4'
  | 5 => '5' | 6 => '6' | 7 => '7' | 8 => '8' | _ => '9'

/-- Decimal rendering of a natural number (Rust `write!("{}", n)`),
as a character list. -/
def natToChars (n : ℕ) : List Char :=
  if h : n < 10 then [digitChar n]
  else natToChars (n / 10) ++ [digitChar (n % 10)]
decreasing_by
  exact Nat.div_lt_self (by omega) (by omega)

/-- Digit-by-digit accumulation of `u16::from_str` (a string of decimal
digits; a leading `+`, which Rust also accepts, never occurs in rendered
output and is not modelled). -/
def parseNatAux : ℕ → List Char → Option ℕ
  | acc, [] => some acc
  | acc, c :: rest =>
    if c.isDigit then parseNatAux (acc * 10 + (c.toNat - 48)) rest else none

/-- `str::parse::<u16>()` on a character list: requires a nonempty digit
string whose value fits in `u16`. -/
def parseU16 (cs : List Char) : Option ℕ :=
  match cs with
  | [] => none
  | _ :: _ =>
    match parseNatAux 0 cs with
    | some n => if n ≤ 65535 then some n else none
    | none => none

/-- ASCII whitespace as stripped by `str::trim` (the Unicode cases never
occur in rendered port strings). -/
def isWhitespaceChar (c : Char) : Bool :=
  c = ' ' || c = '\t' || c = '\n' || c = '\r'

/-- `str::trim`: drop whitespace from both ends. -/
def trimChars (cs : List Char) : List Char :=
  ((cs.dropWhile isWhitespaceChar).reverse.dropWhile isWhitespaceChar).reverse

/-- `str::split('-').collect::<Vec<_>>()`. -/
def splitOnDash : List Char → List (List Char)
  | [] => [[]]
  | c :: rest =>
    if c = '-' then [] :: splitOnDash rest
    else
      match splitOnDash rest with
      | [] => [[c]]
      | part :: parts => (c :: part) :: parts

/-- `str::starts_with(prefix)`. -/
def startsWithChars : List Char → List Char → Bool
  | [], _ => true
  | _ :: _, [] => false
  | p :: ps, c :: cs => p = c && startsWithChars ps cs

/-- Embeds `PortConfig::parse_range` (config.rs lines 420-436): split on
`'-'`, require exactly two parts, parse each as `u16` after trimming, and
require `start ≤ end`. -/
def parseRangeChars (cs : List Char) : Except Err (ℕ × ℕ) :=
  match splitOnDash cs with
  | [a, b] =>
    match parseU16 (trimChars a) with
    | none => .error (.invalidConfig "Invalid start port")
    | some lo =>
      match parseU16 (trimChars b) with
      | none => .error (.invalidConfig "Invalid end port")
      | some hi =>
        if lo > hi then
          .error (.invalidConfig "Start port must be less than or equal to end port")
        else .ok (lo, hi)
  | _ => .error (.invalidConfig "Invalid port range format")

/-- Embeds `PortConfig::parse` (config.rs lines 403-418): trim, then try
`"auto:lo-hi"`, then `"lo-hi"`, else a single `u16`. -/
def portConfigParse (portStr : List Char) : Except Err PortConfig :=
  let portStr := trimChars portStr
  if startsWithChars "auto:".toList portStr then
    match parseRangeChars (portStr.drop 5) with
    | .ok (lo, hi) => .ok (.auto lo hi)
    | .error e => .error e
  else if portStr.any (fun c => c = '-') then
    match parseRangeChars portStr with
    | .ok (lo, hi) => .ok (.range lo hi)
    | .error e => .error e
  else
    match parseU16 portStr with
    | some port => .ok (.single port)
    | none => .error (.invalidConfig "Invalid port number")

/-- Embeds `impl Display for PortConfig` (config.rs lines 480-488):
`"{port}"`, `"{start}-{end}"`, `"auto:{start}-{end}"`. -/
def portConfigToChars : PortConfig → List Char
  | .single port => natToChars port
  | .range lo hi => natToChars lo ++ '-' :: natToChars hi
  | .auto lo hi => "auto:".toList ++ (natToChars lo ++ '-' :: natToChars hi)

lemma digitChar_isDigit {n : ℕ} (h : n < 10) : (digitChar n).isDigit = true := by
  interval_cases n <;> decide

lemma digitChar_val {n : ℕ} (h : n < 10) : (digitChar n).toNat - 48 = n := by
  interval_cases n <;> decide

lemma ne_of_isDigit_of_not {c d : Char} (h : c.isDigit = true)
    (hd : d.isDigit = false) : c ≠ d := by
  intro e; rw [e, hd] at h; cases h

lemma isDigit_not_whitespace {c : Char} (h : c.isDigit = true) :
    isWhitespaceChar c = false := by
  rcases hw : isWhitespaceChar c with _ | _
  · rfl
  · exfalso
    have hor : c = ' ' ∨ c = '\t' ∨ c = '\n' ∨ c = '\r' := by
      simpa [isWhitespaceChar, or_assoc] using hw
    rcases hor with e | e | e | e <;> subst e <;> exact absurd h (by decide)

lemma natToChars_ne_nil (n : ℕ) : natToChars n ≠ [] := by
  rw [natToChars]; split
  · simp
  · simp

lemma natToChars_digits (n : ℕ) : ∀ c ∈ natToChars n, c.isDigit = true := by
  induction n using Nat.strong_induction_on with
  | _ n ih =>
    rw [natToChars]; split
    · intro c hc
      simp only [List.mem_singleton] at hc
      subst hc
      exact digitChar_isDigit (by assumption)
    · intro c hc
      rcases List.mem_append.mp hc with h | h
      · exact ih (n / 10) (Nat.div_lt_self (by omega) (by omega)) c h
      · simp only [List.mem_singleton] at h
        subst h
        exact digitChar_isDigit (Nat.mod_lt _ (by omega))

lemma parseNatAux_append {acc a : ℕ} {xs : List Char}
    (h : parseNatAux acc xs = some a) (ys : List Char) :
    parseNatAux acc (xs ++ ys) = parseNatAux a ys := by
  induction xs generalizing acc with
  | nil =>
    simp only [parseNatAux, Option.some_inj] at h
    subst h; rfl
  | cons c rest ih =>
    simp only [parseNatAux] at h ⊢
    rcases hc : c.isDigit with _ | _
    · rw [hc] at h; simp at h
    · rw [hc] at h
      simp only [if_true]
      exact ih h

lemma parseNatAux_natToChars (n : ℕ) :
    ∀ acc, parseNatAux acc (natToChars n) =
      some (acc * 10 ^ (natToChars n).length + n) := by
  induction n using Nat.strong_induction_on with
  | _ n ih =>
    intro acc
    rw [natToChars]
    split
    · simp only [parseNatAux, digitChar_isDigit (by assumption), if_true,
        digitChar_val (by assumption), List.length_singleton]
      ring_nf
    · have hlt : n / 10 < n := Nat.div_lt_self (by omega) (by omega)
      have hpre := ih (n / 10) hlt acc
      rw [parseNatAux_append hpre]
      have hm : n % 10 < 10 := Nat.mod_lt _ (by omega)
      simp only [parseNatAux, digitChar_isDigit hm, if_true, digitChar_val hm,
        List.length_append, List.length_singleton]
      congr 1
      ring_nf
      rw [Nat.add_assoc]
      congr 1
      omega

lemma parseU16_natToChars {n : ℕ} (h : n ≤ 65535) :
    parseU16 (natToChars n) = some n := by
  rcases hE : natToChars n with _ | ⟨c, cs⟩
  · exact absurd hE (natToChars_ne_nil n)
  · have hv := parseNatAux_natToChars n 0
    rw [hE] at hv
    simp only [Nat.zero_mul, Nat.zero_add] at hv
    simp only [parseU16]
    rw [hv]
    simp [h]

lemma dropWhile_all_false {p : Char → Bool} {cs : List Char}
    (h : ∀ c ∈ cs, p c = false) : cs.dropWhile p = cs := by
  cases cs with
  | nil => rfl
  | cons c rest =>
    rw [List.dropWhile_cons, h c (by simp)]
    simp

lemma trimChars_id {cs : List Char}
    (h : ∀ c ∈ cs, isWhitespaceChar c = false) : trimChars cs = cs := by
  unfold trimChars
  rw [dropWhile_all_false h,
    dropWhile_all_false (fun c hc => h c (List.mem_reverse.mp hc)),
    List.reverse_reverse]

lemma splitOnDash_no_dash {cs : List Char} (h : ∀ c ∈ cs, c ≠ '-') :
    splitOnDash cs = [cs] := by
  induction cs with
  | nil => rfl
  | cons c rest ih =>
    simp only [splitOnDash]
    rw [if_neg (h c (by simp)), ih (fun x hx => h x (by simp [hx]))]

lemma splitOnDash_append {xs : List Char} (ys : List Char)
    (h : ∀ c ∈ xs, c ≠ '-') :
    splitOnDash (xs ++ '-' :: ys) = xs :: splitOnDash ys := by
  induction xs with
  | nil =>
    simp [splitOnDash]
  | cons x xs ih =>
    simp only [List.cons_append, splitOnDash, List.append_eq]
    rw [if_neg (h x (by simp)), ih (fun c hc => h c (by simp [hc]))]

lemma startsWith_of_append (pre rest : List Char) :
    startsWithChars pre (pre ++ rest) = true := by
  induction pre with
  | nil => rfl
  | cons p ps ih =>
    simp [startsWithChars, List.append_eq, ih]

lemma startsWith_false_of_ne {p c : Char} (hne : p ≠ c) (ps cs : List Char) :
    startsWithChars (p :: ps) (c :: cs) = false := by
  simp only [startsWithChars, Bool.and_eq_false_iff, decide_eq_false_iff_not]
  exact Or.inl hne

lemma natToChars_not_ws (n : ℕ) :
    ∀ c ∈ natToChars n, isWhitespaceChar c = false :=
  fun c hc => isDigit_not_whitespace (natToChars_digits n c hc)

lemma natToChars_ne_dash (n : ℕ) : ∀ c ∈ natToChars n, c ≠ '-' :=
  fun c hc => ne_of_isDigit_of_not (natToChars_digits n c hc) (by decide)

lemma any_dash_false {cs : List Char} (hd : ∀ c ∈ cs, c.isDigit = true) :
    cs.any (fun c => c = '-') = false := by
  rcases ha : cs.any (fun c => c = '-') with _ | _
  · rfl
  · exfalso
    rw [List.any_eq_true] at ha
    obtain ⟨c, hc, he⟩ := ha
    rw [decide_eq_true_eq] at he
    subst he
    exact absurd (hd _ hc) (by decide)

lemma any_dash_true (xs ys : List Char) :
    (xs ++ '-' :: ys).any (fun c => c = '-') = true := by
  rw [List.any_eq_true]
  exact ⟨'-', by simp, by simp⟩

lemma startsWith_auto_false {c : Char} (hc : c.isDigit = true) (cs : List Char) :
    startsWithChars "auto:".toList (c :: cs) = false := by
  have hA : "auto:".toList = 'a' :: "uto:".toList := rfl
  rw [hA]
  exact startsWith_false_of_ne (Ne.symm (ne_of_isDigit_of_not hc (by decide))) _ _

lemma not_ws_of_mem_render (lo hi : ℕ) :
    ∀ c ∈ natToChars lo ++ '-' :: natToChars hi, isWhitespaceChar c = false := by
  intro c hc
  rcases List.mem_append.mp hc with h | h
  · exact natToChars_not_ws lo c h
  · rcases List.mem_cons.mp h with e | h
    · subst e; decide
    · exact natToChars_not_ws hi c h

lemma not_ws_of_mem_auto (lo hi : ℕ) :
    ∀ c ∈ "auto:".toList ++ (natToChars lo ++ '-' :: natToChars hi),
      isWhitespaceChar c = false := by
  intro c hc
  rcases List.mem_append.mp hc with h | h
  · have hA : "auto:".toList = ['a', 'u', 't', 'o', ':'] := rfl
    rw [hA] at h
    fin_cases h <;> decide
  · exact not_ws_of_mem_render lo hi c h

lemma parseRangeChars_render {lo hi : ℕ} (hle : lo ≤ hi) (hhi : hi ≤ 65535) :
    parseRangeChars (natToChars lo ++ '-' :: natToChars hi) = .ok (lo, hi) := by
  unfold parseRangeChars
  rw [splitOnDash_append (natToChars hi) (natToChars_ne_dash lo),
    splitOnDash_no_dash (natToChars_ne_dash hi)]
  dsimp only
  rw [trimChars_id (natToChars_not_ws lo),
    parseU16_natToChars (le_trans hle hhi)]
  dsimp only
  rw [trimChars_id (natToChars_not_ws hi), parseU16_natToChars hhi]
  dsimp only
  rw [if_neg (by omega)]

/-- C9: for every port specification s = Single(p), Range(lo,hi) or
Auto(lo,hi) with lo ≤ hi (ports being u16 values, i.e. ≤ 65535), parsing
its Display rendering yields s again: PortConfig::parse(s.to_string()) =
Ok(s). -/
theorem C9_parse_display_round_trip (p lo hi : ℕ)
    (hp : p ≤ 65535) (hle : lo ≤ hi) (hhi : hi ≤ 65535) :
    portConfigParse (portConfigToChars (.single p)) = .ok (.single p) ∧
    portConfigParse (portConfigToChars (.range lo hi)) = .ok (.range lo hi) ∧
    portConfigParse (portConfigToChars (.auto lo hi)) = .ok (.auto lo hi) := by
  refine ⟨?_, ?_, ?_⟩
  · simp only [portConfigToChars, portConfigParse]
    rw [trimChars_id (natToChars_not_ws p)]
    have hSW : startsWithChars "auto:".toList (natToChars p) = false := by
      rcases hE : natToChars p with _ | ⟨c, cs⟩
      · exact absurd hE (natToChars_ne_nil p)
      · exact startsWith_auto_false (natToChars_digits p c (by rw [hE]; simp)) cs
    rw [hSW, if_neg Bool.false_ne_true,
      any_dash_false (natToChars_digits p), if_neg Bool.false_ne_true,
      parseU16_natToChars hp]
  · simp only [portConfigToChars, portConfigParse]
    rw [trimChars_id (not_ws_of_mem_render lo hi)]
    have hSW : startsWithChars "auto:".toList
        (natToChars lo ++ '-' :: natToChars hi) = false := by
      rcases hE : natToChars lo with _ | ⟨c, cs⟩
      · exact absurd hE (natToChars_ne_nil lo)
      · rw [List.cons_append]
        exact startsWith_auto_false (natToChars_digits lo c (by rw [hE]; simp)) _
    rw [hSW, if_neg Bool.false_ne_true, any_dash_true, if_pos rfl,
      parseRangeChars_render hle hhi]
  · simp only [portConfigToChars, portConfigParse]
    rw [trimChars_id (not_ws_of_mem_auto lo hi)]
    rw [startsWith_of_append, if_pos rfl]
    have h5 : List.drop 5
        ("auto:".toList ++ (natToChars lo ++ '-' :: natToChars hi)) =
        natToChars lo ++ '-' :: natToChars hi := rfl
    rw [h5, parseRangeChars_render hle hhi]

/-- Witness: the round trip instantiated at Single(3000), Range(4000,4010)
and Auto(4000,4010). -/
theorem C9_parse_display_round_trip_witness :
    ((3000 : ℕ) ≤ 65535 ∧ (4000 : ℕ) ≤ 4010 ∧ (4010 : ℕ) ≤ 65535) ∧
    (portConfigParse (portConfigToChars (.single 3000)) = .ok (.single 3000) ∧
     portConfigParse (portConfigToChars (.range 4000 4010)) =
       .ok (.range 4000 4010) ∧
     portConfigParse (portConfigToChars (.auto 4000 4010)) =
       .ok (.auto 4000 4010)) :=
  ⟨⟨by decide, by decide, by decide⟩,
    C9_parse_display_round_trip 3000 4000 4010 (by decide) (by decide) (by decide)⟩
